import Mathlib

/- Shallow embedding of src/src/gibbs_sampler.h: the single-thread Gibbs sampler
   worker (GibbsSamplerThread) of the DimmWitted sampling core.  Machine doubles
   are embedded as real numbers; the erand48 RNG is embedded by its 48-bit
   linear-congruential state transition; the per-worker state (RNG seed and the
   varlen_potential_buffer_ scratch vector) and the shared InferenceResult
   arrays are threaded explicitly. -/

/-- Variable domain kinds.  DTYPE_BOOLEAN and DTYPE_MULTINOMIAL are the two
supported enumerators; DTYPE_OTHER stands for any further enumerator of the
external enum, which reaches the `default: abort()` branches. -/
inductive DomainType
  | DTYPE_BOOLEAN
  | DTYPE_MULTINOMIAL
  | DTYPE_OTHER
deriving DecidableEq

open DomainType

/-- Variable descriptor.  Modelled from the spec: factor_graph.h is not among
the sources, so the fields are exactly the ones gibbs_sampler.h reads,
following spec section 3 (identity, domain kind, cardinality, optional sparse
domain map listed in iteration order as (value, index) pairs, observation and
evidence flags, pinned evidence-mode value, tally-buffer offset). -/
structure Variable where
  id : ℕ
  domain_type : DomainType
  cardinality : ℕ
  domain_map : Option (List (ℕ × ℕ))
  is_observation : Bool
  is_evid : Bool
  assignment_evid : ℕ
  n_start_i_tally : ℕ
deriving DecidableEq

/-- Modelled from the spec: `get_domain_index` of the external Variable type
maps a domain value to its compact index: identity for a dense domain, lookup
in the sparse value-to-index map otherwise (spec section 3). -/
def Variable.get_domain_index (v : Variable) (value : ℕ) : ℕ :=
  match v.domain_map with
  | some m => (List.lookup value m).getD 0
  | none => value

/-- Shared inference-state arrays.  Modelled from the spec: the
InferenceResult collaborator (spec section 6) holds the two assignment
vectors, the weight values, and the three aggregate arrays, all pre-sized;
arrays are embedded as total functions on indices. -/
structure InferenceResult where
  assignments_evid : ℕ → ℕ
  assignments_free : ℕ → ℕ
  weight_values : ℕ → ℝ
  agg_nsamples : ℕ → ℕ
  agg_means : ℕ → ℝ
  multinomial_tallies : ℕ → ℕ

/-- Per-worker private state: the 48-bit erand48 state `p_rand_seed` (the
three unsigned shorts combined into one natural below 2^48) and the scratch
vector `varlen_potential_buffer_`, embedded as its element count, its
capacity, and the contents of its backing store. -/
structure WorkerState where
  p_rand_seed : ℕ
  buffer_size : ℕ
  buffer_cap : ℕ
  varlen_potential_buffer_ : ℕ → ℝ

/-- The full state a GibbsSamplerThread can touch: the shared InferenceResult
and its own private worker state. -/
structure GlobalState where
  infrs : InferenceResult
  worker : WorkerState

/-- Factor-graph collaborator interface (spec section 6): the variable
descriptor array, the potential-evaluation operation, and the weight-update
operation.  `update_weight_fn` is modelled from the spec: factor_graph.h is
not among the sources; per spec sections 3 and 6 the learning update reads the
inference state and mutates only the weight parameters, so it is embedded as a
function returning the new weight-value array. -/
structure CompactFactorGraph where
  vars : ℕ → Variable
  potential : Variable → ℕ → (ℕ → ℕ) → (ℕ → ℝ) → ℝ
  update_weight_fn : Variable → InferenceResult → ℝ → (ℕ → ℝ)

/-- Multiplier of the erand48 48-bit linear congruential generator. -/
def rand48_a : ℕ := 25214903917

/-- Increment of the erand48 generator. -/
def rand48_c : ℕ := 11

/-- Modulus 2^48 of the erand48 generator. -/
def rand48_m : ℕ := 281474976710656

/-- One state transition of erand48: the next 48-bit state. -/
def rand48_step (s : ℕ) : ℕ := (rand48_a * s + rand48_c) % rand48_m

/-- The C library erand48: advances the worker's 48-bit state and returns the
new state divided by 2^48, a value in [0,1). -/
noncomputable def erand48 (gs : GlobalState) : ℝ × GlobalState :=
  let s' := rand48_step gs.worker.p_rand_seed
  (((s' : ℝ) / (rand48_m : ℝ)),
   { gs with worker := { gs.worker with p_rand_seed := s' } })

/-- Modelled from the spec: `set_random_seed` (defined outside the header)
stores the given triple of unsigned shorts as the worker's erand48 state
(spec section 3: a 48-bit seed triple, re-seedable externally). -/
def set_random_seed (s0 s1 s2 : ℕ) (w : WorkerState) : WorkerState :=
  { w with p_rand_seed :=
      s0 % 65536 + (s1 % 65536) * 65536 + (s2 % 65536) * 4294967296 }

/-- Modelled from the spec: `logadd` of common.h (not among the sources) is
log-sum-exp of two log-domain values, log(e^a + e^b) (spec glossary and
section 4.1). -/
noncomputable def logadd (a b : ℝ) : ℝ := Real.log (Real.exp a + Real.exp b)

/-- The boolean acceptance rule of draw_sample: given the potential for
value 1 (`potential_pos`), the potential for value 0 (`potential_neg`) and the
uniform draw `r`, propose 1 iff r * (1 + exp(potential_neg - potential_pos))
< 1, else 0. -/
noncomputable def draw_sample_boolean (potential_pos potential_neg r : ℝ) : ℕ :=
  if r * (1 + Real.exp (potential_neg - potential_pos)) < 1 then 1 else 0

/-- The `varlen_potential_buffer_.reserve(cardinality)` call: grows the
vector's capacity to at least `n`; the element count is unchanged. -/
def reserve_buffer (gs : GlobalState) (n : ℕ) : GlobalState :=
  { gs with worker := { gs.worker with
      buffer_cap := max gs.worker.buffer_cap n } }

/-- The domain iteration of the COMPUTE_PROPOSAL macro as a list of
(DOMAIN_VALUE, DOMAIN_INDEX) pairs: the sparse map's entries in order when
`domain_map` is present, else the dense pairs (i, i) for i below the
cardinality. -/
def entriesOf (v : Variable) : List (ℕ × ℕ) :=
  match v.domain_map with
  | some m => m
  | none => (List.range v.cardinality).map (fun i => (i, i))

/-- First pass of the multinomial COMPUTE_PROPOSAL macro: for each domain
entry, evaluate the potential, store it in the scratch buffer at the entry's
index, and fold it into the running log-sum-exp accumulator. -/
noncomputable def pass1 (fg : CompactFactorGraph) (v : Variable)
    (assignments : ℕ → ℕ) (weight_values : ℕ → ℝ) :
    List (ℕ × ℕ) → GlobalState → ℝ → GlobalState × ℝ
  | [], gs, sum => (gs, sum)
  | e :: rest, gs, sum =>
    let p := fg.potential v e.1 assignments weight_values
    let gs' : GlobalState := { gs with worker := { gs.worker with
        varlen_potential_buffer_ :=
          Function.update gs.worker.varlen_potential_buffer_ e.2 p } }
    pass1 fg v assignments weight_values rest gs' (logadd sum p)

/-- Second pass of the multinomial COMPUTE_PROPOSAL macro: walk the domain in
the same order, subtracting exp(buffer[index] - sum) from r; the first entry
at which r drops to 0 or below is selected; if the walk exhausts the domain no
value is selected (`none`). -/
noncomputable def pass2 (buf : ℕ → ℝ) (sum : ℝ) :
    List (ℕ × ℕ) → ℝ → Option ℕ
  | [], _ => none
  | e :: rest, r =>
    let r' := r - Real.exp (buf e.2 - sum)
    if r' ≤ 0 then some e.1 else pass2 buf sum rest r'

/-- Total mass subtracted from r by a full second pass:
the sum over the domain entries of exp(buffer[index] - sum). -/
noncomputable def pass2_total (buf : ℕ → ℝ) (sum : ℝ)
    (entries : List (ℕ × ℕ)) : ℝ :=
  (entries.map (fun e => Real.exp (buf e.2 - sum))).sum

/-- Result of one draw: a proposed value, or a fatal stop (the failed
assert for a multinomial draw that selected nothing, or the `abort()` of the
default branch for an unsupported domain type). -/
inductive DrawResult
  | value (v : ℕ)
  | fatal
deriving DecidableEq

/-- The DTYPE_MULTINOMIAL branch of draw_sample: reserve the scratch buffer,
run the first pass seeded with sum = -100000, draw r with erand48, run the
cumulative-selection second pass; a selected entry's value is returned, and an
exhausted walk is the failed assert (fatal). -/
noncomputable def draw_sample_multinomial (fg : CompactFactorGraph)
    (v : Variable) (assignments : ℕ → ℕ) (weight_values : ℕ → ℝ)
    (gs : GlobalState) : DrawResult × GlobalState :=
  let gs0 := reserve_buffer gs v.cardinality
  let entries := entriesOf v
  let ps := pass1 fg v assignments weight_values entries gs0 (-100000)
  let rg := erand48 ps.1
  match pass2 rg.2.worker.varlen_potential_buffer_ ps.2 entries rg.1 with
  | some val => (DrawResult.value val, rg.2)
  | none => (DrawResult.fatal, rg.2)

/-- GibbsSamplerThread::draw_sample.  Boolean case: evaluate the two
potentials, draw r with erand48, apply the acceptance rule.  Multinomial case:
the two-pass cumulative selection above.  Any other domain type aborts. -/
noncomputable def draw_sample (fg : CompactFactorGraph) (v : Variable)
    (assignments : ℕ → ℕ) (weight_values : ℕ → ℝ) (gs : GlobalState) :
    DrawResult × GlobalState :=
  match v.domain_type with
  | DTYPE_BOOLEAN =>
    let potential_pos := fg.potential v 1 assignments weight_values
    let potential_neg := fg.potential v 0 assignments weight_values
    let rg := erand48 gs
    (DrawResult.value (draw_sample_boolean potential_pos potential_neg rg.1),
     rg.2)
  | DTYPE_MULTINOMIAL =>
    draw_sample_multinomial fg v assignments weight_values gs
  | DTYPE_OTHER => (DrawResult.fatal, gs)

/-- The write `infrs.assignments_evid[variable.id] = proposal`. -/
def write_evid (v : Variable) (val : ℕ) (gs : GlobalState) : GlobalState :=
  { gs with infrs := { gs.infrs with
      assignments_evid :=
        Function.update gs.infrs.assignments_evid v.id val } }

/-- The write `infrs.assignments_free[variable.id] = proposal`. -/
def write_free (v : Variable) (val : ℕ) (gs : GlobalState) : GlobalState :=
  { gs with infrs := { gs.infrs with
      assignments_free :=
        Function.update gs.infrs.assignments_free v.id val } }

/-- The aggregate update `infrs.agg_nsamples[variable.id]++`. -/
def bump_nsamples (v : Variable) (gs : GlobalState) : GlobalState :=
  { gs with infrs := { gs.infrs with
      agg_nsamples :=
        Function.update gs.infrs.agg_nsamples v.id
          (gs.infrs.agg_nsamples v.id + 1) } }

/-- The aggregate update `infrs.agg_means[variable.id] += proposal`. -/
noncomputable def bump_means (v : Variable) (val : ℕ) (gs : GlobalState) :
    GlobalState :=
  { gs with infrs := { gs.infrs with
      agg_means :=
        Function.update gs.infrs.agg_means v.id
          (gs.infrs.agg_means v.id + (val : ℝ)) } }

/-- The aggregate update
`++infrs.multinomial_tallies[n_start_i_tally + get_domain_index(proposal)]`. -/
def bump_tally (v : Variable) (val : ℕ) (gs : GlobalState) : GlobalState :=
  { gs with infrs := { gs.infrs with
      multinomial_tallies :=
        Function.update gs.infrs.multinomial_tallies
          (v.n_start_i_tally + v.get_domain_index val)
          (gs.infrs.multinomial_tallies
            (v.n_start_i_tally + v.get_domain_index val) + 1) } }

/-- The call `fg.update_weight(variable, infrs, stepsize)`: replaces the
weight values by what the external update returns. -/
noncomputable def apply_weight_update (fg : CompactFactorGraph) (v : Variable)
    (stepsize : ℝ) (gs : GlobalState) : GlobalState :=
  { gs with infrs := { gs.infrs with
      weight_values := fg.update_weight_fn v gs.infrs stepsize } }

/-- GibbsSamplerThread::sample_single_variable: skip observations; when the
variable is not evidence or evidence resampling is on, draw against the
evidence assignment vector, write the proposal into that vector, and update
the aggregates (sample counter; boolean running mean or multinomial tally).
A fatal draw or the unreachable default aggregate branch yields `none`
(process aborted). -/
noncomputable def sample_single_variable (fg : CompactFactorGraph)
    (sample_evidence : Bool) (vid : ℕ) (gs : GlobalState) :
    Option GlobalState :=
  let v := fg.vars vid
  if v.is_observation then some gs
  else if !v.is_evid || sample_evidence then
    match draw_sample fg v gs.infrs.assignments_evid gs.infrs.weight_values gs
      with
    | (DrawResult.fatal, _) => none
    | (DrawResult.value proposal, gs1) =>
      match v.domain_type with
      | DTYPE_BOOLEAN =>
        some (bump_means v proposal (bump_nsamples v (write_evid v proposal gs1)))
      | DTYPE_MULTINOMIAL =>
        some (bump_tally v proposal (bump_nsamples v (write_evid v proposal gs1)))
      | DTYPE_OTHER => none
  else some gs

/-- GibbsSamplerThread::sample_sgd_single_variable: skip observations; skip
non-evidence variables unless learning on non-evidence is enabled; the
evidence-conditioned pass takes the pinned value for evidence variables and
draws against the evidence assignment vector otherwise, writing into that
vector; the free pass always draws against the free assignment vector and
writes into it; finally the external weight update runs.  A fatal draw yields
`none` (process aborted). -/
noncomputable def sample_sgd_single_variable (fg : CompactFactorGraph)
    (learn_non_evidence : Bool) (vid : ℕ) (stepsize : ℝ) (gs : GlobalState) :
    Option GlobalState :=
  let v := fg.vars vid
  if v.is_observation then some gs
  else if !learn_non_evidence && !v.is_evid then some gs
  else
    let step1 : Option (ℕ × GlobalState) :=
      if v.is_evid then some (v.assignment_evid, gs)
      else
        match draw_sample fg v gs.infrs.assignments_evid
          gs.infrs.weight_values gs with
        | (DrawResult.fatal, _) => none
        | (DrawResult.value p, gs1) => some (p, gs1)
    match step1 with
    | none => none
    | some (proposal, gs1) =>
      let gs2 := write_evid v proposal gs1
      match draw_sample fg v gs2.infrs.assignments_free
        gs2.infrs.weight_values gs2 with
      | (DrawResult.fatal, _) => none
      | (DrawResult.value p2, gs3) =>
        some (apply_weight_update fg v stepsize (write_free v p2 gs3))

/-- n-fold repetition of an optionally-failing state step (used to speak
about arbitrarily many sweeps over one variable). -/
noncomputable def iterOpt (f : GlobalState → Option GlobalState) :
    ℕ → GlobalState → Option GlobalState
  | 0, gs => some gs
  | n + 1, gs => (f gs).bind (iterOpt f n)

/-- One inference sweep over a list of variable ids (the shard's ids in
order), via sample_single_variable for each id. -/
noncomputable def sweep_list (fg : CompactFactorGraph)
    (sample_evidence : Bool) : List ℕ → GlobalState → Option GlobalState
  | [], gs => some gs
  | vid :: rest, gs =>
    (sample_single_variable fg sample_evidence vid gs).bind
      (sweep_list fg sample_evidence rest)

/-- All buffer accesses of a multinomial draw land inside the vector's
element count: every domain entry's index is below the buffer size. -/
def buffer_writes_in_bounds (w : WorkerState)
    (entries : List (ℕ × ℕ)) : Prop :=
  ∀ e ∈ entries, e.2 < w.buffer_size

/-- Modelled from the spec: a freshly constructed worker's scratch vector
(the constructor is outside the header): the spec (section 3) says the buffer
carries no state across calls beyond capacity, so it starts as a
default-constructed empty vector (element count 0, capacity 0). -/
def init_worker : WorkerState :=
  { p_rand_seed := 0, buffer_size := 0, buffer_cap := 0,
    varlen_potential_buffer_ := fun _ => 0 }

/- Helper lemmas about the embedded operations. -/

/-- pass1 never touches the shared inference state. -/
lemma pass1_infrs (fg : CompactFactorGraph) (v : Variable)
    (a : ℕ → ℕ) (w : ℕ → ℝ) :
    ∀ (entries : List (ℕ × ℕ)) (gs : GlobalState) (s : ℝ),
      (pass1 fg v a w entries gs s).1.infrs = gs.infrs := by
  intro entries
  induction entries with
  | nil => intro gs s; rfl
  | cons e rest ih => intro gs s; simpa [pass1] using ih _ _

/-- pass1 never advances the RNG state. -/
lemma pass1_seed (fg : CompactFactorGraph) (v : Variable)
    (a : ℕ → ℕ) (w : ℕ → ℝ) :
    ∀ (entries : List (ℕ × ℕ)) (gs : GlobalState) (s : ℝ),
      (pass1 fg v a w entries gs s).1.worker.p_rand_seed =
        gs.worker.p_rand_seed := by
  intro entries
  induction entries with
  | nil => intro gs s; rfl
  | cons e rest ih => intro gs s; simpa [pass1] using ih _ _

/-- pass1 never changes the scratch vector's element count. -/
lemma pass1_buffer_size (fg : CompactFactorGraph) (v : Variable)
    (a : ℕ → ℕ) (w : ℕ → ℝ) :
    ∀ (entries : List (ℕ × ℕ)) (gs : GlobalState) (s : ℝ),
      (pass1 fg v a w entries gs s).1.worker.buffer_size =
        gs.worker.buffer_size := by
  intro entries
  induction entries with
  | nil => intro gs s; rfl
  | cons e rest ih => intro gs s; simpa [pass1] using ih _ _

/-- The log-sum-exp accumulator computed by pass1 does not depend on the
worker state it is threaded through. -/
lemma pass1_sum_congr (fg : CompactFactorGraph) (v : Variable)
    (a : ℕ → ℕ) (w : ℕ → ℝ) :
    ∀ (entries : List (ℕ × ℕ)) (gs₁ gs₂ : GlobalState) (s : ℝ),
      (pass1 fg v a w entries gs₁ s).2 = (pass1 fg v a w entries gs₂ s).2 := by
  intro entries
  induction entries with
  | nil => intro gs₁ gs₂ s; rfl
  | cons e rest ih => intro gs₁ gs₂ s; simpa [pass1] using ih _ _ _

/-- pass1 leaves buffer slots outside the iterated domain indices alone. -/
lemma pass1_buf_notin (fg : CompactFactorGraph) (v : Variable)
    (a : ℕ → ℕ) (w : ℕ → ℝ) :
    ∀ (entries : List (ℕ × ℕ)) (gs : GlobalState) (s : ℝ) (i : ℕ),
      i ∉ entries.map Prod.snd →
      (pass1 fg v a w entries gs s).1.worker.varlen_potential_buffer_ i =
        gs.worker.varlen_potential_buffer_ i := by
  intro entries
  induction entries with
  | nil => intro gs s i _; rfl
  | cons e rest ih =>
    intro gs s i hi
    simp only [List.map_cons, List.mem_cons] at hi
    push_neg at hi
    simp only [pass1]
    rw [ih _ _ _ hi.2]
    exact Function.update_noteq hi.1 _ _

/-- On the iterated domain indices, the buffer pass1 produces does not depend
on the initial buffer contents. -/
lemma pass1_buf_congr (fg : CompactFactorGraph) (v : Variable)
    (a : ℕ → ℕ) (w : ℕ → ℝ) :
    ∀ (entries : List (ℕ × ℕ)) (gs₁ gs₂ : GlobalState) (s : ℝ) (i : ℕ),
      i ∈ entries.map Prod.snd →
      (pass1 fg v a w entries gs₁ s).1.worker.varlen_potential_buffer_ i =
        (pass1 fg v a w entries gs₂ s).1.worker.varlen_potential_buffer_ i := by
  intro entries
  induction entries with
  | nil => intro gs₁ gs₂ s i hi; simp at hi
  | cons e rest ih =>
    intro gs₁ gs₂ s i hi
    by_cases hrest : i ∈ rest.map Prod.snd
    · simp only [pass1]
      exact ih _ _ _ _ hrest
    · simp only [List.map_cons, List.mem_cons] at hi
      rcases hi with hi | hi
      · simp only [pass1]
        rw [pass1_buf_notin fg v a w rest _ _ _ hrest,
            pass1_buf_notin fg v a w rest _ _ _ hrest]
        subst hi
        simp
      · exact absurd hi hrest

/-- pass2 only reads the buffer at the iterated domain indices. -/
lemma pass2_congr (sum : ℝ) :
    ∀ (entries : List (ℕ × ℕ)) (buf₁ buf₂ : ℕ → ℝ) (r : ℝ),
      (∀ i ∈ entries.map Prod.snd, buf₁ i = buf₂ i) →
      pass2 buf₁ sum entries r = pass2 buf₂ sum entries r := by
  intro entries
  induction entries with
  | nil => intro buf₁ buf₂ r _; rfl
  | cons e rest ih =>
    intro buf₁ buf₂ r h
    have he : buf₁ e.2 = buf₂ e.2 := h e.2 (by simp)
    have hrest : ∀ i ∈ rest.map Prod.snd, buf₁ i = buf₂ i := by
      intro i hi; exact h i (by simp [hi])
    simp only [pass2, he]
    split
    · rfl
    · exact ih _ _ _ hrest

/-- A value selected by pass2 is the value component of one of the iterated
domain entries. -/
lemma pass2_mem (buf : ℕ → ℝ) (sum : ℝ) :
    ∀ (entries : List (ℕ × ℕ)) (r : ℝ) (val : ℕ),
      pass2 buf sum entries r = some val → val ∈ entries.map Prod.fst := by
  intro entries
  induction entries with
  | nil => intro r val h; simp [pass2] at h
  | cons e rest ih =>
    intro r val h
    simp only [pass2] at h
    split at h
    · simp only [Option.some.injEq] at h
      simp [h]
    · simpa using Or.inr (ih _ _ h)

/-- If the drawn r is nonnegative and strictly below the total mass the second
pass subtracts, pass2 selects a value, and that value is one of the iterated
domain entries' values. -/
lemma pass2_some_of_lt_total (buf : ℕ → ℝ) (sum : ℝ) :
    ∀ (entries : List (ℕ × ℕ)) (r : ℝ), 0 ≤ r →
      r < pass2_total buf sum entries →
      ∃ val, pass2 buf sum entries r = some val ∧
        val ∈ entries.map Prod.fst := by
  intro entries
  induction entries with
  | nil =>
    intro r hr h
    simp [pass2_total] at h
    linarith
  | cons e rest ih =>
    intro r hr h
    simp only [pass2]
    by_cases hsel : r - Real.exp (buf e.2 - sum) ≤ 0
    · exact ⟨e.1, by simp [hsel], by simp⟩
    · push_neg at hsel
      have h' : r - Real.exp (buf e.2 - sum) < pass2_total buf sum rest := by
        simp only [pass2_total, List.map_cons, List.sum_cons] at h
        simp only [pass2_total]
        linarith
      obtain ⟨val, hval, hmem⟩ := ih (r - Real.exp (buf e.2 - sum))
        (le_of_lt hsel) h'
      refine ⟨val, ?_, by simp [hmem]⟩
      simp [not_le.mpr hsel, hval]

/-- The next erand48 state is below 2^48. -/
lemma rand48_step_lt (s : ℕ) : rand48_step s < rand48_m := by
  have : 0 < rand48_m := by norm_num [rand48_m]
  exact Nat.mod_lt _ this

/-- The value erand48 returns is nonnegative. -/
lemma erand48_val_nonneg (gs : GlobalState) : 0 ≤ (erand48 gs).1 := by
  simp only [erand48]
  positivity

/-- The value erand48 returns is below 1. -/
lemma erand48_val_lt_one (gs : GlobalState) : (erand48 gs).1 < 1 := by
  simp only [erand48]
  rw [div_lt_one (by norm_num [rand48_m])]
  exact_mod_cast rand48_step_lt _

/-- The acceptance probability of the boolean rule as the spec states it. -/
noncomputable def boolean_target (p1 p0 : ℝ) : ℝ :=
  Real.exp p1 / (Real.exp p1 + Real.exp p0)

/-- The softmax target equals the reciprocal form the code compares against. -/
lemma boolean_target_eq (p1 p0 : ℝ) :
    boolean_target p1 p0 = 1 / (1 + Real.exp (p0 - p1)) := by
  have h1 : Real.exp p1 ≠ 0 := Real.exp_ne_zero p1
  have hsum : Real.exp p1 + Real.exp p0 ≠ 0 := by positivity
  rw [boolean_target, Real.exp_sub]
  field_simp

/-- The target probability is positive and below 1. -/
lemma boolean_target_mem (p1 p0 : ℝ) :
    0 < boolean_target p1 p0 ∧ boolean_target p1 p0 < 1 := by
  constructor
  · rw [boolean_target]; positivity
  · rw [boolean_target_eq, div_lt_one (by positivity)]
    have := Real.exp_pos (p0 - p1)
    linarith

/-- C1: for every pair of finite potentials p1 (value 1) and p0 (value 0),
the set of uniform draws r in [0,1) accepted by the boolean rule of
draw_sample (accept 1 iff r * (1 + exp(p0 - p1)) < 1) is exactly
[0, exp(p1)/(exp(p1)+exp(p0))), so its Lebesgue measure is exactly
exp(p1)/(exp(p1)+exp(p0)): the rule samples value 1 with probability equal to
the softmax of the potentials, in exact real arithmetic. -/
theorem C1_boolean_acceptance_exact_probability (p1 p0 : ℝ) :
    {r : ℝ | r ∈ Set.Ico (0 : ℝ) 1 ∧ draw_sample_boolean p1 p0 r = 1} =
      Set.Ico (0 : ℝ) (Real.exp p1 / (Real.exp p1 + Real.exp p0)) ∧
    MeasureTheory.volume
        {r : ℝ | r ∈ Set.Ico (0 : ℝ) 1 ∧ draw_sample_boolean p1 p0 r = 1} =
      ENNReal.ofReal (Real.exp p1 / (Real.exp p1 + Real.exp p0)) := by
  have hden : (0 : ℝ) < 1 + Real.exp (p0 - p1) := by positivity
  have htgt := boolean_target_eq p1 p0
  have hmem := boolean_target_mem p1 p0
  have hset : {r : ℝ | r ∈ Set.Ico (0 : ℝ) 1 ∧ draw_sample_boolean p1 p0 r = 1}
      = Set.Ico (0 : ℝ) (Real.exp p1 / (Real.exp p1 + Real.exp p0)) := by
    ext r
    simp only [Set.mem_setOf_eq, Set.mem_Ico, draw_sample_boolean]
    constructor
    · rintro ⟨⟨hr0, _⟩, hacc⟩
      refine ⟨hr0, ?_⟩
      split_ifs at hacc with hc
      have : r < 1 / (1 + Real.exp (p0 - p1)) := by
        rw [lt_div_iff₀ hden]; exact hc
      calc r < 1 / (1 + Real.exp (p0 - p1)) := this
        _ = boolean_target p1 p0 := htgt.symm
        _ = _ := rfl
    · rintro ⟨hr0, hrt⟩
      have hrt' : r < 1 / (1 + Real.exp (p0 - p1)) := by
        calc r < Real.exp p1 / (Real.exp p1 + Real.exp p0) := hrt
          _ = boolean_target p1 p0 := rfl
          _ = 1 / (1 + Real.exp (p0 - p1)) := htgt
      have hacc : r * (1 + Real.exp (p0 - p1)) < 1 := by
        rw [lt_div_iff₀ hden] at hrt'; exact hrt'
      have hr1 : r < 1 := lt_trans hrt (by simpa [boolean_target] using hmem.2)
      exact ⟨⟨hr0, hr1⟩, by simp [hacc]⟩
  refine ⟨hset, ?_⟩
  rw [hset, Real.volume_Ico, sub_zero]

/- Unfolding and frame lemmas for draw_sample. -/

/-- draw_sample on a boolean variable: one erand48 draw fed to the
acceptance rule. -/
lemma draw_sample_eq_bool (fg : CompactFactorGraph) (v : Variable)
    (a : ℕ → ℕ) (w : ℕ → ℝ) (gs : GlobalState)
    (h : v.domain_type = DTYPE_BOOLEAN) :
    draw_sample fg v a w gs =
      (DrawResult.value (draw_sample_boolean (fg.potential v 1 a w)
        (fg.potential v 0 a w) (erand48 gs).1), (erand48 gs).2) := by
  unfold draw_sample
  rw [h]

/-- The multinomial branch written without local abbreviations. -/
lemma draw_multinomial_eq (fg : CompactFactorGraph) (v : Variable)
    (a : ℕ → ℕ) (w : ℕ → ℝ) (gs : GlobalState) :
    draw_sample_multinomial fg v a w gs =
      match pass2 ((erand48 (pass1 fg v a w (entriesOf v)
            (reserve_buffer gs v.cardinality)
              (-100000)).1).2.worker.varlen_potential_buffer_)
          ((pass1 fg v a w (entriesOf v)
            (reserve_buffer gs v.cardinality) (-100000)).2)
          (entriesOf v)
          ((erand48 (pass1 fg v a w (entriesOf v)
            (reserve_buffer gs v.cardinality) (-100000)).1).1) with
      | some val => (DrawResult.value val,
          (erand48 (pass1 fg v a w (entriesOf v)
            (reserve_buffer gs v.cardinality) (-100000)).1).2)
      | none => (DrawResult.fatal,
          (erand48 (pass1 fg v a w (entriesOf v)
            (reserve_buffer gs v.cardinality) (-100000)).1).2) := rfl

/-- draw_sample on a multinomial variable is the two-pass branch. -/
lemma draw_sample_eq_mult (fg : CompactFactorGraph) (v : Variable)
    (a : ℕ → ℕ) (w : ℕ → ℝ) (gs : GlobalState)
    (h : v.domain_type = DTYPE_MULTINOMIAL) :
    draw_sample fg v a w gs = draw_sample_multinomial fg v a w gs := by
  unfold draw_sample
  rw [h]

/-- draw_sample on an unsupported domain type aborts with the state
untouched. -/
lemma draw_sample_eq_other (fg : CompactFactorGraph) (v : Variable)
    (a : ℕ → ℕ) (w : ℕ → ℝ) (gs : GlobalState)
    (h : v.domain_type = DTYPE_OTHER) :
    draw_sample fg v a w gs = (DrawResult.fatal, gs) := by
  unfold draw_sample
  rw [h]

/-- The multinomial branch leaves the shared inference state untouched. -/
lemma draw_multinomial_infrs (fg : CompactFactorGraph) (v : Variable)
    (a : ℕ → ℕ) (w : ℕ → ℝ) (gs : GlobalState) :
    (draw_sample_multinomial fg v a w gs).2.infrs = gs.infrs := by
  simp only [draw_sample_multinomial]
  split
  · simp [erand48, pass1_infrs, reserve_buffer]
  · simp [erand48, pass1_infrs, reserve_buffer]

/-- draw_sample leaves the shared inference state untouched. -/
lemma draw_sample_infrs (fg : CompactFactorGraph) (v : Variable)
    (a : ℕ → ℕ) (w : ℕ → ℝ) (gs : GlobalState) :
    (draw_sample fg v a w gs).2.infrs = gs.infrs := by
  cases h : v.domain_type
  · rw [draw_sample_eq_bool fg v a w gs h]
    simp [erand48]
  · rw [draw_sample_eq_mult fg v a w gs h]
    exact draw_multinomial_infrs fg v a w gs
  · rw [draw_sample_eq_other fg v a w gs h]

/-- The multinomial branch advances the RNG state exactly one erand48 step. -/
lemma draw_multinomial_seed (fg : CompactFactorGraph) (v : Variable)
    (a : ℕ → ℕ) (w : ℕ → ℝ) (gs : GlobalState) :
    (draw_sample_multinomial fg v a w gs).2.worker.p_rand_seed =
      rand48_step gs.worker.p_rand_seed := by
  simp only [draw_sample_multinomial]
  split
  · simp [erand48, pass1_seed, reserve_buffer]
  · simp [erand48, pass1_seed, reserve_buffer]

/-- A draw that proposes a value advances the RNG state exactly one erand48
step. -/
lemma draw_sample_seed_of_value (fg : CompactFactorGraph) (v : Variable)
    (a : ℕ → ℕ) (w : ℕ → ℝ) (gs : GlobalState) (val : ℕ)
    (h : (draw_sample fg v a w gs).1 = DrawResult.value val) :
    (draw_sample fg v a w gs).2.worker.p_rand_seed =
      rand48_step gs.worker.p_rand_seed := by
  cases hd : v.domain_type
  · rw [draw_sample_eq_bool fg v a w gs hd]
    simp [erand48]
  · rw [draw_sample_eq_mult fg v a w gs hd]
    exact draw_multinomial_seed fg v a w gs
  · rw [draw_sample_eq_other fg v a w gs hd] at h
    simp at h

/-- The multinomial branch never changes the scratch vector's element
count. -/
lemma draw_multinomial_buffer_size (fg : CompactFactorGraph) (v : Variable)
    (a : ℕ → ℕ) (w : ℕ → ℝ) (gs : GlobalState) :
    (draw_sample_multinomial fg v a w gs).2.worker.buffer_size =
      gs.worker.buffer_size := by
  simp only [draw_sample_multinomial]
  split
  · simp [erand48, pass1_buffer_size, reserve_buffer]
  · simp [erand48, pass1_buffer_size, reserve_buffer]

/-- draw_sample never changes the scratch vector's element count: the only
vector operation it performs is reserve. -/
lemma draw_sample_buffer_size (fg : CompactFactorGraph) (v : Variable)
    (a : ℕ → ℕ) (w : ℕ → ℝ) (gs : GlobalState) :
    (draw_sample fg v a w gs).2.worker.buffer_size =
      gs.worker.buffer_size := by
  cases h : v.domain_type
  · rw [draw_sample_eq_bool fg v a w gs h]
    simp [erand48]
  · rw [draw_sample_eq_mult fg v a w gs h]
    exact draw_multinomial_buffer_size fg v a w gs
  · rw [draw_sample_eq_other fg v a w gs h]

/-- Determinism of one draw: with equal RNG states the drawn result and the
next RNG state coincide, whatever the two workers' scratch buffers hold. -/
lemma draw_sample_congr (fg : CompactFactorGraph) (v : Variable)
    (a : ℕ → ℕ) (w : ℕ → ℝ) (gs₁ gs₂ : GlobalState)
    (hseed : gs₁.worker.p_rand_seed = gs₂.worker.p_rand_seed) :
    (draw_sample fg v a w gs₁).1 = (draw_sample fg v a w gs₂).1 ∧
    (draw_sample fg v a w gs₁).2.worker.p_rand_seed =
      (draw_sample fg v a w gs₂).2.worker.p_rand_seed := by
  cases h : v.domain_type
  · rw [draw_sample_eq_bool fg v a w gs₁ h, draw_sample_eq_bool fg v a w gs₂ h]
    simp [erand48, hseed]
  · rw [draw_sample_eq_mult fg v a w gs₁ h, draw_sample_eq_mult fg v a w gs₂ h]
    have hsum : (pass1 fg v a w (entriesOf v)
        (reserve_buffer gs₁ v.cardinality) (-100000)).2 =
        (pass1 fg v a w (entriesOf v)
          (reserve_buffer gs₂ v.cardinality) (-100000)).2 :=
      pass1_sum_congr fg v a w _ _ _ _
    have hs1 : (pass1 fg v a w (entriesOf v)
        (reserve_buffer gs₁ v.cardinality) (-100000)).1.worker.p_rand_seed =
        (pass1 fg v a w (entriesOf v)
          (reserve_buffer gs₂ v.cardinality) (-100000)).1.worker.p_rand_seed := by
      rw [pass1_seed, pass1_seed]
      exact hseed
    have hbuf : ∀ i ∈ (entriesOf v).map Prod.snd,
        (pass1 fg v a w (entriesOf v)
          (reserve_buffer gs₁ v.cardinality)
            (-100000)).1.worker.varlen_potential_buffer_ i =
        (pass1 fg v a w (entriesOf v)
          (reserve_buffer gs₂ v.cardinality)
            (-100000)).1.worker.varlen_potential_buffer_ i := by
      intro i hi
      exact pass1_buf_congr fg v a w _ _ _ _ _ hi
    have hr : (erand48 (pass1 fg v a w (entriesOf v)
        (reserve_buffer gs₁ v.cardinality) (-100000)).1).1 =
        (erand48 (pass1 fg v a w (entriesOf v)
          (reserve_buffer gs₂ v.cardinality) (-100000)).1).1 := by
      simp [erand48, hs1]
    have hp2 : pass2 ((erand48 (pass1 fg v a w (entriesOf v)
          (reserve_buffer gs₁ v.cardinality) (-100000)).1).2.worker.varlen_potential_buffer_)
        (pass1 fg v a w (entriesOf v)
          (reserve_buffer gs₁ v.cardinality) (-100000)).2 (entriesOf v)
        (erand48 (pass1 fg v a w (entriesOf v)
          (reserve_buffer gs₁ v.cardinality) (-100000)).1).1 =
        pass2 ((erand48 (pass1 fg v a w (entriesOf v)
          (reserve_buffer gs₂ v.cardinality) (-100000)).1).2.worker.varlen_potential_buffer_)
        (pass1 fg v a w (entriesOf v)
          (reserve_buffer gs₂ v.cardinality) (-100000)).2 (entriesOf v)
        (erand48 (pass1 fg v a w (entriesOf v)
          (reserve_buffer gs₂ v.cardinality) (-100000)).1).1 := by
      rw [hsum, hr]
      exact pass2_congr _ _ _ _ _ (by simpa [erand48] using hbuf)
    rw [draw_multinomial_eq fg v a w gs₁, draw_multinomial_eq fg v a w gs₂,
        hp2]
    rcases hq : pass2 ((erand48 (pass1 fg v a w (entriesOf v)
          (reserve_buffer gs₂ v.cardinality)
            (-100000)).1).2.worker.varlen_potential_buffer_)
        ((pass1 fg v a w (entriesOf v)
          (reserve_buffer gs₂ v.cardinality) (-100000)).2)
        (entriesOf v)
        ((erand48 (pass1 fg v a w (entriesOf v)
          (reserve_buffer gs₂ v.cardinality) (-100000)).1).1) with _ | val
    · simp [hq, erand48, pass1_seed, reserve_buffer, hseed]
    · simp [hq, erand48, pass1_seed, reserve_buffer, hseed]
  · rw [draw_sample_eq_other fg v a w gs₁ h,
        draw_sample_eq_other fg v a w gs₂ h]
    exact ⟨rfl, hseed⟩

/-- C10: draw_sample never modifies the assignment vectors, the weight values,
or any aggregate array: every component of the shared inference state is the
same after any call; its only side effects are on the worker's private RNG
seed and scratch buffer, and all writes to shared state are left to its
callers. -/
theorem C10_draw_sample_pure_of_shared_state (fg : CompactFactorGraph)
    (v : Variable) (a : ℕ → ℕ) (w : ℕ → ℝ) (gs : GlobalState) :
    (draw_sample fg v a w gs).2.infrs.assignments_evid =
      gs.infrs.assignments_evid ∧
    (draw_sample fg v a w gs).2.infrs.assignments_free =
      gs.infrs.assignments_free ∧
    (draw_sample fg v a w gs).2.infrs.weight_values =
      gs.infrs.weight_values ∧
    (draw_sample fg v a w gs).2.infrs.agg_nsamples =
      gs.infrs.agg_nsamples ∧
    (draw_sample fg v a w gs).2.infrs.agg_means =
      gs.infrs.agg_means ∧
    (draw_sample fg v a w gs).2.infrs.multinomial_tallies =
      gs.infrs.multinomial_tallies := by
  have h := draw_sample_infrs fg v a w gs
  exact ⟨by rw [h], by rw [h], by rw [h], by rw [h], by rw [h], by rw [h]⟩

/-- A dense multinomial variable of cardinality 1, used to exhibit the
scratch-buffer sizing slip. -/
def c4_var : Variable :=
  { id := 0, domain_type := DTYPE_MULTINOMIAL, cardinality := 1,
    domain_map := none, is_observation := false, is_evid := false,
    assignment_evid := 0, n_start_i_tally := 0 }

/-- All-zero shared inference state, for concrete instances. -/
noncomputable def zero_infrs : InferenceResult :=
  { assignments_evid := fun _ => 0, assignments_free := fun _ => 0,
    weight_values := fun _ => 0, agg_nsamples := fun _ => 0,
    agg_means := fun _ => 0, multinomial_tallies := fun _ => 0 }

/-- The global state of a freshly constructed worker over the all-zero
inference state. -/
noncomputable def init_global : GlobalState :=
  { infrs := zero_infrs, worker := init_worker }

/-- C4: the scratch-buffer claim fails on the code.  draw_sample's only
vector operation is reserve, so the buffer's element count is unchanged by
every draw (first conjunct); on a fresh worker the reserve performed for a
cardinality-1 multinomial variable raises the capacity to 1 (second
conjunct) but the element count stays 0, so the buffer accesses of the two
passes are NOT within the vector's element count (third conjunct): the code
keeps the accesses within capacity only, and no operation ever gives the
vector `cardinality` valid elements. -/
theorem C4_buffer_reserve_not_resize :
    (∀ (fg : CompactFactorGraph) (v : Variable) (a : ℕ → ℕ) (w : ℕ → ℝ)
      (gs : GlobalState),
      (draw_sample fg v a w gs).2.worker.buffer_size =
        gs.worker.buffer_size) ∧
    (reserve_buffer init_global c4_var.cardinality).worker.buffer_cap = 1 ∧
    ¬ buffer_writes_in_bounds
        (reserve_buffer init_global c4_var.cardinality).worker
        (entriesOf c4_var) := by
  refine ⟨draw_sample_buffer_size, ?_, ?_⟩
  · simp [reserve_buffer, init_global, init_worker, c4_var]
  · intro hb
    have h0 : ((0 : ℕ), (0 : ℕ)) ∈ entriesOf c4_var := by
      simp [entriesOf, c4_var]
    have := hb (0, 0) h0
    simp [reserve_buffer, init_global, init_worker] at this

/- Frame facts for the write combinators (all definitional). -/

@[simp] lemma write_evid_worker (v : Variable) (val : ℕ) (gs : GlobalState) :
    (write_evid v val gs).worker = gs.worker := rfl

@[simp] lemma write_evid_evid (v : Variable) (val : ℕ) (gs : GlobalState) :
    (write_evid v val gs).infrs.assignments_evid =
      Function.update gs.infrs.assignments_evid v.id val := rfl

@[simp] lemma write_evid_free (v : Variable) (val : ℕ) (gs : GlobalState) :
    (write_evid v val gs).infrs.assignments_free =
      gs.infrs.assignments_free := rfl

@[simp] lemma write_evid_weights (v : Variable) (val : ℕ) (gs : GlobalState) :
    (write_evid v val gs).infrs.weight_values = gs.infrs.weight_values := rfl

@[simp] lemma write_evid_nsamples (v : Variable) (val : ℕ) (gs : GlobalState) :
    (write_evid v val gs).infrs.agg_nsamples = gs.infrs.agg_nsamples := rfl

@[simp] lemma write_evid_means (v : Variable) (val : ℕ) (gs : GlobalState) :
    (write_evid v val gs).infrs.agg_means = gs.infrs.agg_means := rfl

@[simp] lemma write_evid_tallies (v : Variable) (val : ℕ) (gs : GlobalState) :
    (write_evid v val gs).infrs.multinomial_tallies =
      gs.infrs.multinomial_tallies := rfl

@[simp] lemma write_free_worker (v : Variable) (val : ℕ) (gs : GlobalState) :
    (write_free v val gs).worker = gs.worker := rfl

@[simp] lemma write_free_evid (v : Variable) (val : ℕ) (gs : GlobalState) :
    (write_free v val gs).infrs.assignments_evid =
      gs.infrs.assignments_evid := rfl

@[simp] lemma write_free_free (v : Variable) (val : ℕ) (gs : GlobalState) :
    (write_free v val gs).infrs.assignments_free =
      Function.update gs.infrs.assignments_free v.id val := rfl

@[simp] lemma write_free_weights (v : Variable) (val : ℕ) (gs : GlobalState) :
    (write_free v val gs).infrs.weight_values = gs.infrs.weight_values := rfl

@[simp] lemma write_free_nsamples (v : Variable) (val : ℕ) (gs : GlobalState) :
    (write_free v val gs).infrs.agg_nsamples = gs.infrs.agg_nsamples := rfl

@[simp] lemma write_free_means (v : Variable) (val : ℕ) (gs : GlobalState) :
    (write_free v val gs).infrs.agg_means = gs.infrs.agg_means := rfl

@[simp] lemma write_free_tallies (v : Variable) (val : ℕ) (gs : GlobalState) :
    (write_free v val gs).infrs.multinomial_tallies =
      gs.infrs.multinomial_tallies := rfl

@[simp] lemma bump_nsamples_worker (v : Variable) (gs : GlobalState) :
    (bump_nsamples v gs).worker = gs.worker := rfl

@[simp] lemma bump_nsamples_evid (v : Variable) (gs : GlobalState) :
    (bump_nsamples v gs).infrs.assignments_evid =
      gs.infrs.assignments_evid := rfl

@[simp] lemma bump_nsamples_free (v : Variable) (gs : GlobalState) :
    (bump_nsamples v gs).infrs.assignments_free =
      gs.infrs.assignments_free := rfl

@[simp] lemma bump_nsamples_weights (v : Variable) (gs : GlobalState) :
    (bump_nsamples v gs).infrs.weight_values = gs.infrs.weight_values := rfl

@[simp] lemma bump_nsamples_nsamples (v : Variable) (gs : GlobalState) :
    (bump_nsamples v gs).infrs.agg_nsamples =
      Function.update gs.infrs.agg_nsamples v.id
        (gs.infrs.agg_nsamples v.id + 1) := rfl

@[simp] lemma bump_nsamples_means (v : Variable) (gs : GlobalState) :
    (bump_nsamples v gs).infrs.agg_means = gs.infrs.agg_means := rfl

@[simp] lemma bump_nsamples_tallies (v : Variable) (gs : GlobalState) :
    (bump_nsamples v gs).infrs.multinomial_tallies =
      gs.infrs.multinomial_tallies := rfl

@[simp] lemma bump_means_worker (v : Variable) (val : ℕ) (gs : GlobalState) :
    (bump_means v val gs).worker = gs.worker := rfl

@[simp] lemma bump_means_evid (v : Variable) (val : ℕ) (gs : GlobalState) :
    (bump_means v val gs).infrs.assignments_evid =
      gs.infrs.assignments_evid := rfl

@[simp] lemma bump_means_free (v : Variable) (val : ℕ) (gs : GlobalState) :
    (bump_means v val gs).infrs.assignments_free =
      gs.infrs.assignments_free := rfl

@[simp] lemma bump_means_weights (v : Variable) (val : ℕ) (gs : GlobalState) :
    (bump_means v val gs).infrs.weight_values = gs.infrs.weight_values := rfl

@[simp] lemma bump_means_nsamples (v : Variable) (val : ℕ) (gs : GlobalState) :
    (bump_means v val gs).infrs.agg_nsamples = gs.infrs.agg_nsamples := rfl

@[simp] lemma bump_means_means (v : Variable) (val : ℕ) (gs : GlobalState) :
    (bump_means v val gs).infrs.agg_means =
      Function.update gs.infrs.agg_means v.id
        (gs.infrs.agg_means v.id + (val : ℝ)) := rfl

@[simp] lemma bump_means_tallies (v : Variable) (val : ℕ) (gs : GlobalState) :
    (bump_means v val gs).infrs.multinomial_tallies =
      gs.infrs.multinomial_tallies := rfl

@[simp] lemma bump_tally_worker (v : Variable) (val : ℕ) (gs : GlobalState) :
    (bump_tally v val gs).worker = gs.worker := rfl

@[simp] lemma bump_tally_evid (v : Variable) (val : ℕ) (gs : GlobalState) :
    (bump_tally v val gs).infrs.assignments_evid =
      gs.infrs.assignments_evid := rfl

@[simp] lemma bump_tally_free (v : Variable) (val : ℕ) (gs : GlobalState) :
    (bump_tally v val gs).infrs.assignments_free =
      gs.infrs.assignments_free := rfl

@[simp] lemma bump_tally_weights (v : Variable) (val : ℕ) (gs : GlobalState) :
    (bump_tally v val gs).infrs.weight_values = gs.infrs.weight_values := rfl

@[simp] lemma bump_tally_nsamples (v : Variable) (val : ℕ) (gs : GlobalState) :
    (bump_tally v val gs).infrs.agg_nsamples = gs.infrs.agg_nsamples := rfl

@[simp] lemma bump_tally_means (v : Variable) (val : ℕ) (gs : GlobalState) :
    (bump_tally v val gs).infrs.agg_means = gs.infrs.agg_means := rfl

@[simp] lemma bump_tally_tallies (v : Variable) (val : ℕ) (gs : GlobalState) :
    (bump_tally v val gs).infrs.multinomial_tallies =
      Function.update gs.infrs.multinomial_tallies
        (v.n_start_i_tally + v.get_domain_index val)
        (gs.infrs.multinomial_tallies
          (v.n_start_i_tally + v.get_domain_index val) + 1) := rfl

@[simp] lemma apply_weight_update_worker (fg : CompactFactorGraph)
    (v : Variable) (s : ℝ) (gs : GlobalState) :
    (apply_weight_update fg v s gs).worker = gs.worker := rfl

@[simp] lemma apply_weight_update_evid (fg : CompactFactorGraph)
    (v : Variable) (s : ℝ) (gs : GlobalState) :
    (apply_weight_update fg v s gs).infrs.assignments_evid =
      gs.infrs.assignments_evid := rfl

@[simp] lemma apply_weight_update_free (fg : CompactFactorGraph)
    (v : Variable) (s : ℝ) (gs : GlobalState) :
    (apply_weight_update fg v s gs).infrs.assignments_free =
      gs.infrs.assignments_free := rfl

@[simp] lemma apply_weight_update_nsamples (fg : CompactFactorGraph)
    (v : Variable) (s : ℝ) (gs : GlobalState) :
    (apply_weight_update fg v s gs).infrs.agg_nsamples =
      gs.infrs.agg_nsamples := rfl

@[simp] lemma apply_weight_update_means (fg : CompactFactorGraph)
    (v : Variable) (s : ℝ) (gs : GlobalState) :
    (apply_weight_update fg v s gs).infrs.agg_means =
      gs.infrs.agg_means := rfl

@[simp] lemma apply_weight_update_tallies (fg : CompactFactorGraph)
    (v : Variable) (s : ℝ) (gs : GlobalState) :
    (apply_weight_update fg v s gs).infrs.multinomial_tallies =
      gs.infrs.multinomial_tallies := rfl

/- Branch lemmas for the two sweep functions. -/

/-- A draw whose pair form is known leaves the shared state equal. -/
lemma draw_sample_pair_infrs (fg : CompactFactorGraph) (v : Variable)
    (a : ℕ → ℕ) (w : ℕ → ℝ) (gs gs1 : GlobalState) (res : DrawResult)
    (h : draw_sample fg v a w gs = (res, gs1)) : gs1.infrs = gs.infrs := by
  have := draw_sample_infrs fg v a w gs
  rw [h] at this
  exact this

/-- sample_single_variable skips observation variables. -/
lemma ssv_obs (fg : CompactFactorGraph) (se : Bool) (vid : ℕ)
    (gs : GlobalState) (h : (fg.vars vid).is_observation = true) :
    sample_single_variable fg se vid gs = some gs := by
  simp [sample_single_variable, h]

/-- sample_single_variable skips evidence variables when evidence resampling
is off. -/
lemma ssv_skip (fg : CompactFactorGraph) (vid : ℕ) (gs : GlobalState)
    (hobs : (fg.vars vid).is_observation = false)
    (hevid : (fg.vars vid).is_evid = true) :
    sample_single_variable fg false vid gs = some gs := by
  simp [sample_single_variable, hobs, hevid]

/-- sample_single_variable aborts when the draw is fatal on a processed
variable. -/
lemma ssv_fatal (fg : CompactFactorGraph) (se : Bool) (vid : ℕ)
    (gs gs1 : GlobalState)
    (hobs : (fg.vars vid).is_observation = false)
    (hcond : (!(fg.vars vid).is_evid || se) = true)
    (hd : draw_sample fg (fg.vars vid) gs.infrs.assignments_evid
      gs.infrs.weight_values gs = (DrawResult.fatal, gs1)) :
    sample_single_variable fg se vid gs = none := by
  simp [sample_single_variable, hobs, hcond, hd]

/-- sample_single_variable on a processed boolean variable with a successful
draw: write the proposal, bump the counter, add to the running mean. -/
lemma ssv_value_bool (fg : CompactFactorGraph) (se : Bool) (vid : ℕ)
    (gs gs1 : GlobalState) (val : ℕ)
    (hobs : (fg.vars vid).is_observation = false)
    (hcond : (!(fg.vars vid).is_evid || se) = true)
    (hdom : (fg.vars vid).domain_type = DTYPE_BOOLEAN)
    (hd : draw_sample fg (fg.vars vid) gs.infrs.assignments_evid
      gs.infrs.weight_values gs = (DrawResult.value val, gs1)) :
    sample_single_variable fg se vid gs =
      some (bump_means (fg.vars vid) val
        (bump_nsamples (fg.vars vid) (write_evid (fg.vars vid) val gs1))) := by
  simp [sample_single_variable, hobs, hcond, hd, hdom]

/-- sample_single_variable on a processed multinomial variable with a
successful draw: write the proposal, bump the counter, bump the tally. -/
lemma ssv_value_mult (fg : CompactFactorGraph) (se : Bool) (vid : ℕ)
    (gs gs1 : GlobalState) (val : ℕ)
    (hobs : (fg.vars vid).is_observation = false)
    (hcond : (!(fg.vars vid).is_evid || se) = true)
    (hdom : (fg.vars vid).domain_type = DTYPE_MULTINOMIAL)
    (hd : draw_sample fg (fg.vars vid) gs.infrs.assignments_evid
      gs.infrs.weight_values gs = (DrawResult.value val, gs1)) :
    sample_single_variable fg se vid gs =
      some (bump_tally (fg.vars vid) val
        (bump_nsamples (fg.vars vid) (write_evid (fg.vars vid) val gs1))) := by
  simp [sample_single_variable, hobs, hcond, hd, hdom]

/-- sample_sgd_single_variable skips observation variables. -/
lemma sgd_obs (fg : CompactFactorGraph) (lne : Bool) (vid : ℕ) (st : ℝ)
    (gs : GlobalState) (h : (fg.vars vid).is_observation = true) :
    sample_sgd_single_variable fg lne vid st gs = some gs := by
  simp [sample_sgd_single_variable, h]

/-- sample_sgd_single_variable skips non-evidence variables when learning is
restricted to evidence. -/
lemma sgd_skip (fg : CompactFactorGraph) (vid : ℕ) (st : ℝ)
    (gs : GlobalState)
    (hobs : (fg.vars vid).is_observation = false)
    (hevid : (fg.vars vid).is_evid = false) :
    sample_sgd_single_variable fg false vid st gs = some gs := by
  simp [sample_sgd_single_variable, hobs, hevid]

/-- sample_sgd_single_variable on a processed evidence variable: the
evidence-conditioned pass writes the pinned value without drawing; then the
free pass draws; on success the free value is written and the weight update
runs. -/
lemma sgd_evid_value (fg : CompactFactorGraph) (lne : Bool) (vid : ℕ)
    (st : ℝ) (gs gs3 : GlobalState) (p2 : ℕ)
    (hobs : (fg.vars vid).is_observation = false)
    (hevid : (fg.vars vid).is_evid = true)
    (hd2 : draw_sample fg (fg.vars vid)
      (write_evid (fg.vars vid) (fg.vars vid).assignment_evid
        gs).infrs.assignments_free
      (write_evid (fg.vars vid) (fg.vars vid).assignment_evid
        gs).infrs.weight_values
      (write_evid (fg.vars vid) (fg.vars vid).assignment_evid gs) =
      (DrawResult.value p2, gs3)) :
    sample_sgd_single_variable fg lne vid st gs =
      some (apply_weight_update fg (fg.vars vid) st
        (write_free (fg.vars vid) p2 gs3)) := by
  simp only [write_evid_free, write_evid_weights] at hd2
  simp [sample_sgd_single_variable, hobs, hevid, hd2]

/-- sample_sgd_single_variable on a processed evidence variable whose free
pass draw is fatal aborts. -/
lemma sgd_evid_fatal (fg : CompactFactorGraph) (lne : Bool) (vid : ℕ)
    (st : ℝ) (gs gs3 : GlobalState)
    (hobs : (fg.vars vid).is_observation = false)
    (hevid : (fg.vars vid).is_evid = true)
    (hd2 : draw_sample fg (fg.vars vid)
      (write_evid (fg.vars vid) (fg.vars vid).assignment_evid
        gs).infrs.assignments_free
      (write_evid (fg.vars vid) (fg.vars vid).assignment_evid
        gs).infrs.weight_values
      (write_evid (fg.vars vid) (fg.vars vid).assignment_evid gs) =
      (DrawResult.fatal, gs3)) :
    sample_sgd_single_variable fg lne vid st gs = none := by
  simp only [write_evid_free, write_evid_weights] at hd2
  simp [sample_sgd_single_variable, hobs, hevid, hd2]

/-- sample_sgd_single_variable on a processed non-evidence variable with both
draws successful: the evidence pass draws against the evidence vector and
writes there, the free pass draws against the free vector and writes there,
then the weight update runs. -/
lemma sgd_nonevid_value (fg : CompactFactorGraph) (vid : ℕ)
    (st : ℝ) (gs gs1 gs3 : GlobalState) (p p2 : ℕ)
    (hobs : (fg.vars vid).is_observation = false)
    (hevid : (fg.vars vid).is_evid = false)
    (hd1 : draw_sample fg (fg.vars vid) gs.infrs.assignments_evid
      gs.infrs.weight_values gs = (DrawResult.value p, gs1))
    (hd2 : draw_sample fg (fg.vars vid)
      (write_evid (fg.vars vid) p gs1).infrs.assignments_free
      (write_evid (fg.vars vid) p gs1).infrs.weight_values
      (write_evid (fg.vars vid) p gs1) = (DrawResult.value p2, gs3)) :
    sample_sgd_single_variable fg true vid st gs =
      some (apply_weight_update fg (fg.vars vid) st
        (write_free (fg.vars vid) p2 gs3)) := by
  simp only [write_evid_free, write_evid_weights] at hd2
  simp [sample_sgd_single_variable, hobs, hevid, hd1, hd2]

/-- sample_sgd_single_variable on a processed non-evidence variable whose
evidence-pass draw is fatal aborts. -/
lemma sgd_nonevid_fatal1 (fg : CompactFactorGraph) (vid : ℕ)
    (st : ℝ) (gs gs1 : GlobalState)
    (hobs : (fg.vars vid).is_observation = false)
    (hevid : (fg.vars vid).is_evid = false)
    (hd1 : draw_sample fg (fg.vars vid) gs.infrs.assignments_evid
      gs.infrs.weight_values gs = (DrawResult.fatal, gs1)) :
    sample_sgd_single_variable fg true vid st gs = none := by
  simp [sample_sgd_single_variable, hobs, hevid, hd1]

/-- sample_sgd_single_variable on a processed non-evidence variable whose
free-pass draw is fatal aborts. -/
lemma sgd_nonevid_fatal2 (fg : CompactFactorGraph) (vid : ℕ)
    (st : ℝ) (gs gs1 gs3 : GlobalState) (p : ℕ)
    (hobs : (fg.vars vid).is_observation = false)
    (hevid : (fg.vars vid).is_evid = false)
    (hd1 : draw_sample fg (fg.vars vid) gs.infrs.assignments_evid
      gs.infrs.weight_values gs = (DrawResult.value p, gs1))
    (hd2 : draw_sample fg (fg.vars vid)
      (write_evid (fg.vars vid) p gs1).infrs.assignments_free
      (write_evid (fg.vars vid) p gs1).infrs.weight_values
      (write_evid (fg.vars vid) p gs1) = (DrawResult.fatal, gs3)) :
    sample_sgd_single_variable fg true vid st gs = none := by
  simp only [write_evid_free, write_evid_weights] at hd2
  simp [sample_sgd_single_variable, hobs, hevid, hd1, hd2]

/-- A state fixed by one step is fixed by any number of steps. -/
lemma iterOpt_fixed (f : GlobalState → Option GlobalState) (gs : GlobalState)
    (h : f gs = some gs) : ∀ n, iterOpt f n gs = some gs := by
  intro n
  induction n with
  | zero => rfl
  | succ k ih => simp [iterOpt, h, ih]

/-- C5: in an inference sweep, a non-observation variable's slot in the
evidence assignment vector is written (and its sample counter bumped) if and
only if the variable is not evidence or the resample-evidence flag is on;
an evidence variable with the flag off is skipped with the whole state,
aggregates included, unchanged.  (A processed variable may instead abort on a
fatal draw, in which case nothing is written either.) -/
theorem C5_evidence_resampled_iff_flag (fg : CompactFactorGraph) (se : Bool)
    (vid : ℕ) (gs : GlobalState)
    (hobs : (fg.vars vid).is_observation = false) :
    (((fg.vars vid).is_evid = true ∧ se = false) →
      sample_single_variable fg se vid gs = some gs) ∧
    (¬((fg.vars vid).is_evid = true ∧ se = false) →
      sample_single_variable fg se vid gs = none ∨
      ∃ gs' : GlobalState, sample_single_variable fg se vid gs = some gs' ∧
        (∃ gs1 : GlobalState,
          draw_sample fg (fg.vars vid) gs.infrs.assignments_evid
            gs.infrs.weight_values gs =
            (DrawResult.value (gs'.infrs.assignments_evid (fg.vars vid).id),
             gs1)) ∧
        gs'.infrs.agg_nsamples (fg.vars vid).id =
          gs.infrs.agg_nsamples (fg.vars vid).id + 1) := by
  constructor
  · rintro ⟨hevid, hse⟩
    subst hse
    exact ssv_skip fg vid gs hobs hevid
  · intro hns
    have hcond : (!(fg.vars vid).is_evid || se) = true := by
      cases hie : (fg.vars vid).is_evid <;> cases hs : se <;> simp_all
    rcases hd : draw_sample fg (fg.vars vid) gs.infrs.assignments_evid
      gs.infrs.weight_values gs with ⟨res, gs1⟩
    have hinfrs : gs1.infrs = gs.infrs :=
      draw_sample_pair_infrs fg (fg.vars vid) _ _ gs gs1 res hd
    cases res with
    | fatal => exact Or.inl (ssv_fatal fg se vid gs gs1 hobs hcond hd)
    | value val =>
      cases hdom : (fg.vars vid).domain_type with
      | DTYPE_BOOLEAN =>
        refine Or.inr ⟨bump_means (fg.vars vid) val
          (bump_nsamples (fg.vars vid) (write_evid (fg.vars vid) val gs1)),
          ssv_value_bool fg se vid gs gs1 val hobs hcond hdom hd, ⟨gs1, ?_⟩,
          ?_⟩
        · simp [hd]
        · simp [hinfrs]
      | DTYPE_MULTINOMIAL =>
        refine Or.inr ⟨bump_tally (fg.vars vid) val
          (bump_nsamples (fg.vars vid) (write_evid (fg.vars vid) val gs1)),
          ssv_value_mult fg se vid gs gs1 val hobs hcond hdom hd, ⟨gs1, ?_⟩,
          ?_⟩
        · simp [hd]
        · simp [hinfrs]
      | DTYPE_OTHER =>
        rw [draw_sample_eq_other fg (fg.vars vid) _ _ gs hdom] at hd
        simp at hd

/-- Evidence boolean variable pinned to 5, for concrete instances. -/
def wit5_var : Variable :=
  { id := 0, domain_type := DTYPE_BOOLEAN, cardinality := 0,
    domain_map := none, is_observation := false, is_evid := true,
    assignment_evid := 5, n_start_i_tally := 0 }

/-- Factor graph whose every variable is wit5_var, with zero potentials and
an identity weight update. -/
noncomputable def wit5_fg : CompactFactorGraph :=
  { vars := fun _ => wit5_var, potential := fun _ _ _ _ => 0,
    update_weight_fn := fun _ infrs _ => infrs.weight_values }

/-- Witness for C5: on the evidence variable with the resample-evidence flag
off, the inference sweep step leaves the state untouched. -/
theorem C5_evidence_resampled_iff_flag_witness :
    sample_single_variable wit5_fg false 0 init_global = some init_global :=
  (C5_evidence_resampled_iff_flag wit5_fg false 0 init_global rfl).1 ⟨rfl, rfl⟩

/-- C6: a variable flagged is_observation is never touched: both sweep
functions return the state unchanged (assignment vectors, aggregates and
weights included), and therefore any number of repeated sweeps of either kind
leaves the state identical. -/
theorem C6_observation_variables_never_mutated (fg : CompactFactorGraph)
    (se lne : Bool) (vid : ℕ) (st : ℝ) (gs : GlobalState)
    (hobs : (fg.vars vid).is_observation = true) :
    sample_single_variable fg se vid gs = some gs ∧
    sample_sgd_single_variable fg lne vid st gs = some gs ∧
    (∀ n, iterOpt (sample_single_variable fg se vid) n gs = some gs) ∧
    (∀ n, iterOpt (sample_sgd_single_variable fg lne vid st) n gs = some gs) := by
  have h1 := ssv_obs fg se vid gs hobs
  have h2 := sgd_obs fg lne vid st gs hobs
  exact ⟨h1, h2, iterOpt_fixed _ gs h1, iterOpt_fixed _ gs h2⟩

/-- Observation boolean variable, for concrete instances. -/
def wit6_var : Variable :=
  { id := 0, domain_type := DTYPE_BOOLEAN, cardinality := 0,
    domain_map := none, is_observation := true, is_evid := true,
    assignment_evid := 1, n_start_i_tally := 0 }

/-- Factor graph whose every variable is the fixed observation wit6_var. -/
noncomputable def wit6_fg : CompactFactorGraph :=
  { vars := fun _ => wit6_var, potential := fun _ _ _ _ => 0,
    update_weight_fn := fun _ infrs _ => infrs.weight_values }

/-- Witness for C6: the observation variable survives an inference step, an
SGD step, and a thousand repetitions of each, with the state identical. -/
theorem C6_observation_variables_never_mutated_witness :
    sample_single_variable wit6_fg true 0 init_global = some init_global ∧
    sample_sgd_single_variable wit6_fg true 0 1 init_global =
      some init_global ∧
    iterOpt (sample_single_variable wit6_fg true 0) 1000 init_global =
      some init_global ∧
    iterOpt (sample_sgd_single_variable wit6_fg true 0 1) 1000 init_global =
      some init_global := by
  have h := C6_observation_variables_never_mutated wit6_fg true true 0 1
    init_global rfl
  exact ⟨h.1, h.2.1, h.2.2.1 1000, h.2.2.2 1000⟩

/-- A draw whose pair form proposes a value advances the RNG state exactly
one erand48 step. -/
lemma draw_sample_pair_seed (fg : CompactFactorGraph) (v : Variable)
    (a : ℕ → ℕ) (w : ℕ → ℝ) (gs gs1 : GlobalState) (val : ℕ)
    (h : draw_sample fg v a w gs = (DrawResult.value val, gs1)) :
    gs1.worker.p_rand_seed = rand48_step gs.worker.p_rand_seed := by
  have hs := draw_sample_seed_of_value fg v a w gs val (by rw [h])
  rw [h] at hs
  exact hs

/-- C7: in the evidence-conditioned pass of sample_sgd_single_variable, a
processed evidence variable gets its pinned observed value written into the
evidence assignment vector and no draw is made for that pass (the whole call
consumes exactly the one erand48 step of the free pass); a processed
non-evidence variable gets a fresh draw against the evidence assignment
vector written there (and the call consumes two erand48 steps). -/
theorem C7_sgd_evidence_pass (fg : CompactFactorGraph) (lne : Bool)
    (vid : ℕ) (st : ℝ) (gs : GlobalState)
    (hobs : (fg.vars vid).is_observation = false)
    (hproc : lne = true ∨ (fg.vars vid).is_evid = true) :
    ((fg.vars vid).is_evid = true →
      ∀ gs' : GlobalState,
        sample_sgd_single_variable fg lne vid st gs = some gs' →
        gs'.infrs.assignments_evid (fg.vars vid).id =
          (fg.vars vid).assignment_evid ∧
        gs'.worker.p_rand_seed = rand48_step gs.worker.p_rand_seed) ∧
    ((fg.vars vid).is_evid = false →
      ∀ gs' : GlobalState,
        sample_sgd_single_variable fg lne vid st gs = some gs' →
        (∃ gs1 : GlobalState,
          draw_sample fg (fg.vars vid) gs.infrs.assignments_evid
            gs.infrs.weight_values gs =
            (DrawResult.value (gs'.infrs.assignments_evid (fg.vars vid).id),
             gs1)) ∧
        gs'.worker.p_rand_seed =
          rand48_step (rand48_step gs.worker.p_rand_seed)) := by
  constructor
  · intro hevid gs' hres
    rcases hd2 : draw_sample fg (fg.vars vid)
      (write_evid (fg.vars vid) (fg.vars vid).assignment_evid
        gs).infrs.assignments_free
      (write_evid (fg.vars vid) (fg.vars vid).assignment_evid
        gs).infrs.weight_values
      (write_evid (fg.vars vid) (fg.vars vid).assignment_evid gs)
      with ⟨res2, gs3⟩
    cases res2 with
    | fatal =>
      rw [sgd_evid_fatal fg lne vid st gs gs3 hobs hevid hd2] at hres
      exact absurd hres (by simp)
    | value p2 =>
      rw [sgd_evid_value fg lne vid st gs gs3 p2 hobs hevid hd2] at hres
      have hgs' : gs' = apply_weight_update fg (fg.vars vid) st
          (write_free (fg.vars vid) p2 gs3) := by
        exact (Option.some.injEq _ _).mp hres.symm
      have hinfrs : gs3.infrs =
          (write_evid (fg.vars vid) (fg.vars vid).assignment_evid gs).infrs :=
        draw_sample_pair_infrs fg (fg.vars vid) _ _ _ gs3 _ hd2
      have hseed : gs3.worker.p_rand_seed =
          rand48_step gs.worker.p_rand_seed := by
        have := draw_sample_pair_seed fg (fg.vars vid) _ _ _ gs3 p2 hd2
        simpa using this
      subst hgs'
      constructor
      · simp [hinfrs]
      · simp [hseed]
  · intro hevid gs' hres
    have hlne : lne = true := by
      rcases hproc with h | h
      · exact h
      · rw [h] at hevid; exact absurd hevid (by simp)
    subst hlne
    rcases hd1 : draw_sample fg (fg.vars vid) gs.infrs.assignments_evid
      gs.infrs.weight_values gs with ⟨res1, gs1⟩
    cases res1 with
    | fatal =>
      rw [sgd_nonevid_fatal1 fg vid st gs gs1 hobs hevid hd1] at hres
      exact absurd hres (by simp)
    | value p =>
      rcases hd2 : draw_sample fg (fg.vars vid)
        (write_evid (fg.vars vid) p gs1).infrs.assignments_free
        (write_evid (fg.vars vid) p gs1).infrs.weight_values
        (write_evid (fg.vars vid) p gs1) with ⟨res2, gs3⟩
      cases res2 with
      | fatal =>
        rw [sgd_nonevid_fatal2 fg vid st gs gs1 gs3 p hobs hevid hd1 hd2]
          at hres
        exact absurd hres (by simp)
      | value p2 =>
        rw [sgd_nonevid_value fg vid st gs gs1 gs3 p p2 hobs hevid hd1 hd2]
          at hres
        have hgs' : gs' = apply_weight_update fg (fg.vars vid) st
            (write_free (fg.vars vid) p2 gs3) := by
          exact (Option.some.injEq _ _).mp hres.symm
        have hinfrs : gs3.infrs = (write_evid (fg.vars vid) p gs1).infrs :=
          draw_sample_pair_infrs fg (fg.vars vid) _ _ _ gs3 _ hd2
        have hseed3 : gs3.worker.p_rand_seed =
            rand48_step gs1.worker.p_rand_seed := by
          have := draw_sample_pair_seed fg (fg.vars vid) _ _ _ gs3 p2 hd2
          simpa using this
        have hseed1 : gs1.worker.p_rand_seed =
            rand48_step gs.worker.p_rand_seed :=
          draw_sample_pair_seed fg (fg.vars vid) _ _ gs gs1 p hd1
        subst hgs'
        constructor
        · refine ⟨gs1, ?_⟩
          have hslot : (apply_weight_update fg (fg.vars vid) st
              (write_free (fg.vars vid) p2 gs3)).infrs.assignments_evid
                (fg.vars vid).id = p := by
            simp [hinfrs]
          rw [hslot]
        · simp [hseed3, hseed1]

/-- State after the evidence-pass write of the concrete C7 run. -/
noncomputable def wit7_gs2 : GlobalState := write_evid wit5_var 5 init_global

/-- State after the free-pass erand48 call of the concrete C7 run. -/
noncomputable def wit7_gs3 : GlobalState :=
  { wit7_gs2 with worker :=
      { wit7_gs2.worker with p_rand_seed := rand48_step 0 } }

/-- Result state of the concrete C7 run. -/
noncomputable def wit7_result : GlobalState :=
  apply_weight_update wit5_fg wit5_var 0 (write_free wit5_var 1 wit7_gs3)

/-- The free-pass draw of the concrete C7 run accepts value 1. -/
lemma wit7_draw_eval :
    draw_sample wit5_fg wit5_var wit7_gs2.infrs.assignments_free
      wit7_gs2.infrs.weight_values wit7_gs2 = (DrawResult.value 1, wit7_gs3) := by
  rw [draw_sample_eq_bool wit5_fg wit5_var _ _ wit7_gs2 rfl]
  have hb : draw_sample_boolean
      (wit5_fg.potential wit5_var 1 wit7_gs2.infrs.assignments_free
        wit7_gs2.infrs.weight_values)
      (wit5_fg.potential wit5_var 0 wit7_gs2.infrs.assignments_free
        wit7_gs2.infrs.weight_values) (erand48 wit7_gs2).1 = 1 := by
    have hpot : wit5_fg.potential wit5_var 1 wit7_gs2.infrs.assignments_free
        wit7_gs2.infrs.weight_values = 0 := rfl
    have hpot0 : wit5_fg.potential wit5_var 0 wit7_gs2.infrs.assignments_free
        wit7_gs2.infrs.weight_values = 0 := rfl
    rw [hpot, hpot0, draw_sample_boolean]
    have hseed : wit7_gs2.worker.p_rand_seed = 0 := rfl
    have hr : (erand48 wit7_gs2).1 = ((11 : ℕ) : ℝ) / (281474976710656 : ℝ) := by
      simp [erand48, hseed, rand48_step, rand48_a, rand48_c, rand48_m]
    rw [hr]
    norm_num [Real.exp_zero]
  rw [hb]
  rfl

/-- The concrete C7 run: the SGD step on the pinned evidence variable. -/
lemma wit7_eval :
    sample_sgd_single_variable wit5_fg false 0 0 init_global =
      some wit7_result :=
  sgd_evid_value wit5_fg false 0 0 init_global wit7_gs3 1 rfl rfl wit7_draw_eval

/-- Witness for C7: on the concrete run the evidence slot holds the pinned
value 5 and the RNG advanced exactly one step (only the free pass drew). -/
theorem C7_sgd_evidence_pass_witness :
    wit7_result.infrs.assignments_evid 0 = 5 ∧
    wit7_result.worker.p_rand_seed =
      rand48_step init_global.worker.p_rand_seed :=
  (C7_sgd_evidence_pass wit5_fg false 0 0 init_global rfl (Or.inr rfl)).1
    rfl wit7_result wit7_eval

/-- C8: aggregate counters are monotonically non-decreasing under the sweep
steps (sample counters and multinomial tallies outright; boolean mean
accumulators because a drawn value, a natural number, is non-negative); a
processed variable's sample counter is bumped by exactly 1 by an inference
step and other counters at other ids are untouched; a skipped variable leaves
the state identical; and an SGD step changes no aggregate at all. -/
theorem C8_aggregates_monotone_and_exact (fg : CompactFactorGraph)
    (se lne : Bool) (vid : ℕ) (st : ℝ) (gs : GlobalState) :
    (∀ gs' : GlobalState, sample_single_variable fg se vid gs = some gs' →
      (∀ i, gs.infrs.agg_nsamples i ≤ gs'.infrs.agg_nsamples i) ∧
      (∀ i, gs.infrs.agg_means i ≤ gs'.infrs.agg_means i) ∧
      (∀ i, gs.infrs.multinomial_tallies i ≤
        gs'.infrs.multinomial_tallies i)) ∧
    ((fg.vars vid).is_observation = false →
      (!(fg.vars vid).is_evid || se) = true →
      ∀ gs' : GlobalState, sample_single_variable fg se vid gs = some gs' →
        gs'.infrs.agg_nsamples (fg.vars vid).id =
          gs.infrs.agg_nsamples (fg.vars vid).id + 1 ∧
        ∀ i, i ≠ (fg.vars vid).id →
          gs'.infrs.agg_nsamples i = gs.infrs.agg_nsamples i) ∧
    (((fg.vars vid).is_observation = true ∨
      ((fg.vars vid).is_evid = true ∧ se = false)) →
      sample_single_variable fg se vid gs = some gs) ∧
    (∀ gs' : GlobalState,
      sample_sgd_single_variable fg lne vid st gs = some gs' →
      gs'.infrs.agg_nsamples = gs.infrs.agg_nsamples ∧
      gs'.infrs.agg_means = gs.infrs.agg_means ∧
      gs'.infrs.multinomial_tallies = gs.infrs.multinomial_tallies) := by
  refine ⟨?_, ?_, ?_, ?_⟩
  · intro gs' hres
    by_cases hobs : (fg.vars vid).is_observation = true
    · rw [ssv_obs fg se vid gs hobs] at hres
      injection hres with h
      subst h
      exact ⟨fun i => le_refl _, fun i => le_refl _, fun i => le_refl _⟩
    · have hobs' : (fg.vars vid).is_observation = false := by
        simpa using hobs
      by_cases hcond : (!(fg.vars vid).is_evid || se) = true
      · rcases hd : draw_sample fg (fg.vars vid) gs.infrs.assignments_evid
          gs.infrs.weight_values gs with ⟨res, gs1⟩
        have hinfrs : gs1.infrs = gs.infrs :=
          draw_sample_pair_infrs fg (fg.vars vid) _ _ gs gs1 res hd
        cases res with
        | fatal =>
          rw [ssv_fatal fg se vid gs gs1 hobs' hcond hd] at hres
          exact absurd hres (by simp)
        | value val =>
          cases hdom : (fg.vars vid).domain_type with
          | DTYPE_BOOLEAN =>
            rw [ssv_value_bool fg se vid gs gs1 val hobs' hcond hdom hd]
              at hres
            injection hres with h
            subst h
            refine ⟨fun i => ?_, fun i => ?_, fun i => by simp [hinfrs]⟩
            · simp only [bump_means_nsamples, bump_nsamples_nsamples,
                write_evid_nsamples, hinfrs]
              rcases eq_or_ne i (fg.vars vid).id with hi | hi
              · subst hi
                simp
              · rw [Function.update_noteq hi]
            · simp only [bump_means_means, bump_nsamples_means,
                write_evid_means, hinfrs]
              rcases eq_or_ne i (fg.vars vid).id with hi | hi
              · subst hi
                simp [le_add_of_nonneg_right]
              · rw [Function.update_noteq hi]
          | DTYPE_MULTINOMIAL =>
            rw [ssv_value_mult fg se vid gs gs1 val hobs' hcond hdom hd]
              at hres
            injection hres with h
            subst h
            refine ⟨fun i => ?_, fun i => by simp [hinfrs], fun i => ?_⟩
            · simp only [bump_tally_nsamples, bump_nsamples_nsamples,
                write_evid_nsamples, hinfrs]
              rcases eq_or_ne i (fg.vars vid).id with hi | hi
              · subst hi
                simp
              · rw [Function.update_noteq hi]
            · simp only [bump_tally_tallies, bump_nsamples_tallies,
                write_evid_tallies, hinfrs]
              rcases eq_or_ne i ((fg.vars vid).n_start_i_tally +
                (fg.vars vid).get_domain_index val) with hi | hi
              · subst hi
                simp
              · rw [Function.update_noteq hi]
          | DTYPE_OTHER =>
            rw [draw_sample_eq_other fg (fg.vars vid) _ _ gs hdom] at hd
            simp at hd
      · have hskip : (fg.vars vid).is_evid = true ∧ se = false := by
          cases hie : (fg.vars vid).is_evid <;> cases hs : se <;> simp_all
        obtain ⟨hevid, hse⟩ := hskip
        subst hse
        rw [ssv_skip fg vid gs hobs' hevid] at hres
        injection hres with h
        subst h
        exact ⟨fun i => le_refl _, fun i => le_refl _, fun i => le_refl _⟩
  · intro hobs hcond gs' hres
    rcases hd : draw_sample fg (fg.vars vid) gs.infrs.assignments_evid
      gs.infrs.weight_values gs with ⟨res, gs1⟩
    have hinfrs : gs1.infrs = gs.infrs :=
      draw_sample_pair_infrs fg (fg.vars vid) _ _ gs gs1 res hd
    cases res with
    | fatal =>
      rw [ssv_fatal fg se vid gs gs1 hobs hcond hd] at hres
      exact absurd hres (by simp)
    | value val =>
      cases hdom : (fg.vars vid).domain_type with
      | DTYPE_BOOLEAN =>
        rw [ssv_value_bool fg se vid gs gs1 val hobs hcond hdom hd] at hres
        injection hres with h
        subst h
        constructor
        · simp [hinfrs]
        · intro i hi
          simp only [bump_means_nsamples, bump_nsamples_nsamples,
            write_evid_nsamples, hinfrs]
          rw [Function.update_noteq hi]
      | DTYPE_MULTINOMIAL =>
        rw [ssv_value_mult fg se vid gs gs1 val hobs hcond hdom hd] at hres
        injection hres with h
        subst h
        constructor
        · simp [hinfrs]
        · intro i hi
          simp only [bump_tally_nsamples, bump_nsamples_nsamples,
            write_evid_nsamples, hinfrs]
          rw [Function.update_noteq hi]
      | DTYPE_OTHER =>
        rw [draw_sample_eq_other fg (fg.vars vid) _ _ gs hdom] at hd
        simp at hd
  · rintro (hobs | ⟨hevid, hse⟩)
    · exact ssv_obs fg se vid gs hobs
    · subst hse
      have hobs' : (fg.vars vid).is_observation = false ∨
          (fg.vars vid).is_observation = true := by
        cases (fg.vars vid).is_observation <;> simp
      rcases hobs' with h | h
      · exact ssv_skip fg vid gs h hevid
      · exact ssv_obs fg false vid gs h
  · intro gs' hres
    by_cases hobs : (fg.vars vid).is_observation = true
    · rw [sgd_obs fg lne vid st gs hobs] at hres
      injection hres with h
      subst h
      exact ⟨rfl, rfl, rfl⟩
    · have hobs' : (fg.vars vid).is_observation = false := by
        simpa using hobs
      by_cases hevid : (fg.vars vid).is_evid = true
      · rcases hd2 : draw_sample fg (fg.vars vid)
          (write_evid (fg.vars vid) (fg.vars vid).assignment_evid
            gs).infrs.assignments_free
          (write_evid (fg.vars vid) (fg.vars vid).assignment_evid
            gs).infrs.weight_values
          (write_evid (fg.vars vid) (fg.vars vid).assignment_evid gs)
          with ⟨res2, gs3⟩
        cases res2 with
        | fatal =>
          rw [sgd_evid_fatal fg lne vid st gs gs3 hobs' hevid hd2] at hres
          exact absurd hres (by simp)
        | value p2 =>
          rw [sgd_evid_value fg lne vid st gs gs3 p2 hobs' hevid hd2] at hres
          injection hres with h
          subst h
          have hinfrs : gs3.infrs =
              (write_evid (fg.vars vid) (fg.vars vid).assignment_evid
                gs).infrs :=
            draw_sample_pair_infrs fg (fg.vars vid) _ _ _ gs3 _ hd2
          refine ⟨?_, ?_, ?_⟩ <;> simp [hinfrs]
      · have hevid' : (fg.vars vid).is_evid = false := by simpa using hevid
        by_cases hlne : lne = true
        · subst hlne
          rcases hd1 : draw_sample fg (fg.vars vid)
            gs.infrs.assignments_evid gs.infrs.weight_values gs
            with ⟨res1, gs1⟩
          cases res1 with
          | fatal =>
            rw [sgd_nonevid_fatal1 fg vid st gs gs1 hobs' hevid' hd1] at hres
            exact absurd hres (by simp)
          | value p =>
            have hinfrs1 : gs1.infrs = gs.infrs :=
              draw_sample_pair_infrs fg (fg.vars vid) _ _ gs gs1 _ hd1
            rcases hd2 : draw_sample fg (fg.vars vid)
              (write_evid (fg.vars vid) p gs1).infrs.assignments_free
              (write_evid (fg.vars vid) p gs1).infrs.weight_values
              (write_evid (fg.vars vid) p gs1) with ⟨res2, gs3⟩
            cases res2 with
            | fatal =>
              rw [sgd_nonevid_fatal2 fg vid st gs gs1 gs3 p hobs' hevid'
                hd1 hd2] at hres
              exact absurd hres (by simp)
            | value p2 =>
              rw [sgd_nonevid_value fg vid st gs gs1 gs3 p p2 hobs' hevid'
                hd1 hd2] at hres
              injection hres with h
              subst h
              have hinfrs3 : gs3.infrs =
                  (write_evid (fg.vars vid) p gs1).infrs :=
                draw_sample_pair_infrs fg (fg.vars vid) _ _ _ gs3 _ hd2
              refine ⟨?_, ?_, ?_⟩ <;> simp [hinfrs3, hinfrs1]
        · have hlne' : lne = false := by simpa using hlne
          subst hlne'
          rw [sgd_skip fg vid st gs hobs' hevid'] at hres
          injection hres with h
          subst h
          exact ⟨rfl, rfl, rfl⟩

/-- State after the erand48 call of the concrete inference draw. -/
noncomputable def wit8_gs1 : GlobalState :=
  { init_global with worker :=
      { init_global.worker with p_rand_seed := rand48_step 0 } }

/-- The concrete inference draw on the all-zero state accepts value 1. -/
lemma wit8_draw_eval :
    draw_sample wit5_fg wit5_var init_global.infrs.assignments_evid
      init_global.infrs.weight_values init_global =
      (DrawResult.value 1, wit8_gs1) := by
  rw [draw_sample_eq_bool wit5_fg wit5_var _ _ init_global rfl]
  have hb : draw_sample_boolean
      (wit5_fg.potential wit5_var 1 init_global.infrs.assignments_evid
        init_global.infrs.weight_values)
      (wit5_fg.potential wit5_var 0 init_global.infrs.assignments_evid
        init_global.infrs.weight_values) (erand48 init_global).1 = 1 := by
    have hpot : wit5_fg.potential wit5_var 1
        init_global.infrs.assignments_evid
        init_global.infrs.weight_values = 0 := rfl
    have hpot0 : wit5_fg.potential wit5_var 0
        init_global.infrs.assignments_evid
        init_global.infrs.weight_values = 0 := rfl
    rw [hpot, hpot0, draw_sample_boolean]
    have hseed : init_global.worker.p_rand_seed = 0 := rfl
    have hr : (erand48 init_global).1 =
        ((11 : ℕ) : ℝ) / (281474976710656 : ℝ) := by
      simp [erand48, hseed, rand48_step, rand48_a, rand48_c, rand48_m]
    rw [hr]
    norm_num [Real.exp_zero]
  rw [hb]
  rfl

/-- Result of the concrete processed inference step. -/
noncomputable def wit8_result : GlobalState :=
  bump_means wit5_var 1 (bump_nsamples wit5_var (write_evid wit5_var 1 wit8_gs1))

/-- The concrete processed inference step on the evidence variable with
resampling on. -/
lemma wit8_eval :
    sample_single_variable wit5_fg true 0 init_global = some wit8_result :=
  ssv_value_bool wit5_fg true 0 init_global wit8_gs1 1 rfl rfl rfl
    wit8_draw_eval

/-- Witness for C8: on the concrete runs the processed inference step bumps
the variable's sample counter by exactly one and leaves another id's counter
alone; monotonicity holds at every index; and the concrete SGD step changed
no aggregate. -/
theorem C8_aggregates_monotone_and_exact_witness :
    wit8_result.infrs.agg_nsamples 0 = init_global.infrs.agg_nsamples 0 + 1 ∧
    wit8_result.infrs.agg_nsamples 3 = init_global.infrs.agg_nsamples 3 ∧
    init_global.infrs.agg_means 0 ≤ wit8_result.infrs.agg_means 0 ∧
    sample_single_variable wit5_fg false 0 init_global = some init_global ∧
    wit7_result.infrs.agg_nsamples = init_global.infrs.agg_nsamples ∧
    wit7_result.infrs.multinomial_tallies =
      init_global.infrs.multinomial_tallies := by
  have h := C8_aggregates_monotone_and_exact wit5_fg true false 0 0
    init_global
  have h2 := C8_aggregates_monotone_and_exact wit5_fg false false 0 0
    init_global
  refine ⟨(h.2.1 rfl rfl wit8_result wit8_eval).1,
    (h.2.1 rfl rfl wit8_result wit8_eval).2 3 (by simp [wit5_fg, wit5_var]),
    ((h.1 wit8_result wit8_eval).2.1) 0,
    h2.2.2.1 (Or.inr ⟨rfl, rfl⟩),
    (h.2.2.2 wit7_result wit7_eval).1,
    (h.2.2.2 wit7_result wit7_eval).2.2⟩

/-- One inference step is determined by the shared state and the RNG state:
two workers that agree on those (scratch buffers arbitrary) either both abort
or both produce states agreeing on the shared state and the RNG state. -/
lemma ssv_congr (fg : CompactFactorGraph) (se : Bool) (vid : ℕ)
    (gs₁ gs₂ : GlobalState) (hinfrs : gs₁.infrs = gs₂.infrs)
    (hseed : gs₁.worker.p_rand_seed = gs₂.worker.p_rand_seed) :
    (sample_single_variable fg se vid gs₁ = none ∧
     sample_single_variable fg se vid gs₂ = none) ∨
    (∃ h₁ h₂ : GlobalState, sample_single_variable fg se vid gs₁ = some h₁ ∧
      sample_single_variable fg se vid gs₂ = some h₂ ∧
      h₁.infrs = h₂.infrs ∧
      h₁.worker.p_rand_seed = h₂.worker.p_rand_seed) := by
  have ha : gs₁.infrs.assignments_evid = gs₂.infrs.assignments_evid := by
    rw [hinfrs]
  have hw : gs₁.infrs.weight_values = gs₂.infrs.weight_values := by
    rw [hinfrs]
  by_cases hobs : (fg.vars vid).is_observation = true
  · exact Or.inr ⟨gs₁, gs₂, ssv_obs fg se vid gs₁ hobs,
      ssv_obs fg se vid gs₂ hobs, hinfrs, hseed⟩
  · have hobs' : (fg.vars vid).is_observation = false := by simpa using hobs
    by_cases hcond : (!(fg.vars vid).is_evid || se) = true
    · have hcg := draw_sample_congr fg (fg.vars vid)
        gs₂.infrs.assignments_evid gs₂.infrs.weight_values gs₁ gs₂ hseed
      rcases hd₁ : draw_sample fg (fg.vars vid) gs₁.infrs.assignments_evid
        gs₁.infrs.weight_values gs₁ with ⟨res₁, g₁⟩
      rcases hd₂ : draw_sample fg (fg.vars vid) gs₂.infrs.assignments_evid
        gs₂.infrs.weight_values gs₂ with ⟨res₂, g₂⟩
      rw [ha, hw] at hd₁
      have hres : res₁ = res₂ := by
        have := hcg.1
        rw [hd₁, hd₂] at this
        exact this
      have hsd : g₁.worker.p_rand_seed = g₂.worker.p_rand_seed := by
        have := hcg.2
        rw [hd₁, hd₂] at this
        exact this
      have hgi₁ : g₁.infrs = gs₁.infrs := by
        have := draw_sample_infrs fg (fg.vars vid)
          gs₂.infrs.assignments_evid gs₂.infrs.weight_values gs₁
        rw [hd₁] at this
        exact this
      have hgi₂ : g₂.infrs = gs₂.infrs :=
        draw_sample_pair_infrs fg (fg.vars vid) _ _ gs₂ g₂ res₂ hd₂
      rw [← ha, ← hw] at hd₁
      subst hres
      cases res₁ with
      | fatal =>
        exact Or.inl ⟨ssv_fatal fg se vid gs₁ g₁ hobs' hcond hd₁,
          ssv_fatal fg se vid gs₂ g₂ hobs' hcond hd₂⟩
      | value val =>
        have hginfrs : g₁.infrs = g₂.infrs := by rw [hgi₁, hgi₂, hinfrs]
        cases hdom : (fg.vars vid).domain_type with
        | DTYPE_BOOLEAN =>
          refine Or.inr ⟨_, _,
            ssv_value_bool fg se vid gs₁ g₁ val hobs' hcond hdom hd₁,
            ssv_value_bool fg se vid gs₂ g₂ val hobs' hcond hdom hd₂, ?_, ?_⟩
          · simp [bump_means, bump_nsamples, write_evid, hginfrs]
          · simpa using hsd
        | DTYPE_MULTINOMIAL =>
          refine Or.inr ⟨_, _,
            ssv_value_mult fg se vid gs₁ g₁ val hobs' hcond hdom hd₁,
            ssv_value_mult fg se vid gs₂ g₂ val hobs' hcond hdom hd₂, ?_, ?_⟩
          · simp [bump_tally, bump_nsamples, write_evid, hginfrs]
          · simpa using hsd
        | DTYPE_OTHER =>
          rw [draw_sample_eq_other fg (fg.vars vid) _ _ gs₂ hdom] at hd₂
          simp at hd₂
    · have hskip : (fg.vars vid).is_evid = true ∧ se = false := by
        cases hie : (fg.vars vid).is_evid <;> cases hs : se <;> simp_all
      obtain ⟨hevid, hse⟩ := hskip
      subst hse
      exact Or.inr ⟨gs₁, gs₂, ssv_skip fg vid gs₁ hobs' hevid,
        ssv_skip fg vid gs₂ hobs' hevid, hinfrs, hseed⟩

/-- A whole inference sweep over any id list is determined by the shared
state and the RNG state, whatever the two workers' scratch buffers hold. -/
lemma sweep_list_congr (fg : CompactFactorGraph) (se : Bool) :
    ∀ (vids : List ℕ) (gs₁ gs₂ : GlobalState),
      gs₁.infrs = gs₂.infrs →
      gs₁.worker.p_rand_seed = gs₂.worker.p_rand_seed →
      (sweep_list fg se vids gs₁ = none ∧
       sweep_list fg se vids gs₂ = none) ∨
      (∃ h₁ h₂ : GlobalState, sweep_list fg se vids gs₁ = some h₁ ∧
        sweep_list fg se vids gs₂ = some h₂ ∧
        h₁.infrs = h₂.infrs ∧
        h₁.worker.p_rand_seed = h₂.worker.p_rand_seed) := by
  intro vids
  induction vids with
  | nil =>
    intro gs₁ gs₂ hinfrs hseed
    exact Or.inr ⟨gs₁, gs₂, rfl, rfl, hinfrs, hseed⟩
  | cons vid rest ih =>
    intro gs₁ gs₂ hinfrs hseed
    rcases ssv_congr fg se vid gs₁ gs₂ hinfrs hseed with
      ⟨hn₁, hn₂⟩ | ⟨h₁, h₂, e₁, e₂, hi, hs⟩
    · left
      constructor <;> simp [sweep_list, hn₁, hn₂]
    · rcases ih h₁ h₂ hi hs with ⟨hn₁, hn₂⟩ | ⟨k₁, k₂, f₁, f₂, ki, ks⟩
      · left
        constructor <;> simp [sweep_list, e₁, e₂, hn₁, hn₂]
      · right
        exact ⟨k₁, k₂, by simp [sweep_list, e₁, f₁],
          by simp [sweep_list, e₂, f₂], ki, ks⟩

/-- C9: two workers reseeded with the same triple via set_random_seed and
given the same shared inputs produce identical draws and identical sweeps:
each draw_sample result and the RNG state it leaves behind agree, and a whole
inference sweep over any id list yields the same shared state and RNG state —
whatever the two workers' scratch buffers previously held, so the seed state
and the inputs are the only sources of variation. -/
theorem C9_reseeded_workers_identical (fg : CompactFactorGraph) (se : Bool)
    (s0 s1 s2 : ℕ) (gs₁ gs₂ : GlobalState)
    (hinfrs : gs₁.infrs = gs₂.infrs) :
    (∀ (v : Variable) (a : ℕ → ℕ) (w : ℕ → ℝ),
      (draw_sample fg v a w
        { gs₁ with worker := set_random_seed s0 s1 s2 gs₁.worker }).1 =
      (draw_sample fg v a w
        { gs₂ with worker := set_random_seed s0 s1 s2 gs₂.worker }).1 ∧
      (draw_sample fg v a w
        { gs₁ with worker := set_random_seed s0 s1 s2 gs₁.worker
          }).2.worker.p_rand_seed =
      (draw_sample fg v a w
        { gs₂ with worker := set_random_seed s0 s1 s2 gs₂.worker
          }).2.worker.p_rand_seed) ∧
    (∀ vids : List ℕ,
      Option.map (fun gs : GlobalState => (gs.infrs, gs.worker.p_rand_seed))
        (sweep_list fg se vids
          { gs₁ with worker := set_random_seed s0 s1 s2 gs₁.worker }) =
      Option.map (fun gs : GlobalState => (gs.infrs, gs.worker.p_rand_seed))
        (sweep_list fg se vids
          { gs₂ with worker := set_random_seed s0 s1 s2 gs₂.worker })) := by
  have hseed : ({ gs₁ with worker := set_random_seed s0 s1 s2 gs₁.worker
      } : GlobalState).worker.p_rand_seed =
      ({ gs₂ with worker := set_random_seed s0 s1 s2 gs₂.worker
      } : GlobalState).worker.p_rand_seed := rfl
  have hinfrs' : ({ gs₁ with worker := set_random_seed s0 s1 s2 gs₁.worker
      } : GlobalState).infrs =
      ({ gs₂ with worker := set_random_seed s0 s1 s2 gs₂.worker
      } : GlobalState).infrs := hinfrs
  constructor
  · intro v a w
    exact draw_sample_congr fg v a w _ _ hseed
  · intro vids
    rcases sweep_list_congr fg se vids _ _ hinfrs' hseed with
      ⟨hn₁, hn₂⟩ | ⟨h₁, h₂, e₁, e₂, hi, hs⟩
    · rw [hn₁, hn₂]
    · rw [e₁, e₂]
      simp [hi, hs]

/-- A second worker state with a scribbled-on scratch buffer and a different
seed, sharing the all-zero inference state. -/
noncomputable def wit9_gs2 : GlobalState :=
  { infrs := zero_infrs, worker :=
    { p_rand_seed := 999, buffer_size := 7, buffer_cap := 9,
      varlen_potential_buffer_ := fun _ => 37 } }

/-- Witness for C9: reseeding both concrete workers with (7,8,9) makes the
concrete draw and the concrete three-variable sweep agree, despite the
different buffers and pre-reseed seeds. -/
theorem C9_reseeded_workers_identical_witness :
    (draw_sample wit5_fg wit5_var (fun _ => 0) (fun _ => 0)
      { init_global with
        worker := set_random_seed 7 8 9 init_global.worker }).1 =
    (draw_sample wit5_fg wit5_var (fun _ => 0) (fun _ => 0)
      { wit9_gs2 with
        worker := set_random_seed 7 8 9 wit9_gs2.worker }).1 ∧
    Option.map (fun gs : GlobalState => (gs.infrs, gs.worker.p_rand_seed))
      (sweep_list wit5_fg true [0, 1, 2]
        { init_global with
          worker := set_random_seed 7 8 9 init_global.worker }) =
    Option.map (fun gs : GlobalState => (gs.infrs, gs.worker.p_rand_seed))
      (sweep_list wit5_fg true [0, 1, 2]
        { wit9_gs2 with
          worker := set_random_seed 7 8 9 wit9_gs2.worker }) := by
  have h := C9_reseeded_workers_identical wit5_fg true 7 8 9 init_global
    wit9_gs2 rfl
  exact ⟨(h.1 wit5_var (fun _ => 0) (fun _ => 0)).1, h.2 [0, 1, 2]⟩

/-- The cumulative-selection outcome of a multinomial draw: the pass2 result
computed on exactly the buffer, accumulator and uniform draw that
draw_sample's multinomial branch uses. -/
noncomputable def mult_sel (fg : CompactFactorGraph) (v : Variable)
    (a : ℕ → ℕ) (w : ℕ → ℝ) (gs : GlobalState) : Option ℕ :=
  pass2 ((erand48 (pass1 fg v a w (entriesOf v)
      (reserve_buffer gs v.cardinality)
        (-100000)).1).2.worker.varlen_potential_buffer_)
    ((pass1 fg v a w (entriesOf v)
      (reserve_buffer gs v.cardinality) (-100000)).2)
    (entriesOf v)
    ((erand48 (pass1 fg v a w (entriesOf v)
      (reserve_buffer gs v.cardinality) (-100000)).1).1)

/-- The multinomial branch is fatal exactly when the selection loop exits
without selecting. -/
lemma draw_multinomial_fatal_iff (fg : CompactFactorGraph) (v : Variable)
    (a : ℕ → ℕ) (w : ℕ → ℝ) (gs : GlobalState) :
    (draw_sample_multinomial fg v a w gs).1 = DrawResult.fatal ↔
      mult_sel fg v a w gs = none := by
  rw [draw_multinomial_eq]
  unfold mult_sel
  rcases hq : pass2 ((erand48 (pass1 fg v a w (entriesOf v)
      (reserve_buffer gs v.cardinality)
        (-100000)).1).2.worker.varlen_potential_buffer_)
    ((pass1 fg v a w (entriesOf v)
      (reserve_buffer gs v.cardinality) (-100000)).2)
    (entriesOf v)
    ((erand48 (pass1 fg v a w (entriesOf v)
      (reserve_buffer gs v.cardinality) (-100000)).1).1) with _ | val
  · simp [hq]
  · simp [hq]

/-- The multinomial branch proposes a value exactly when the selection loop
selects it. -/
lemma draw_multinomial_value_iff (fg : CompactFactorGraph) (v : Variable)
    (a : ℕ → ℕ) (w : ℕ → ℝ) (gs : GlobalState) (val : ℕ) :
    (draw_sample_multinomial fg v a w gs).1 = DrawResult.value val ↔
      mult_sel fg v a w gs = some val := by
  rw [draw_multinomial_eq]
  unfold mult_sel
  rcases hq : pass2 ((erand48 (pass1 fg v a w (entriesOf v)
      (reserve_buffer gs v.cardinality)
        (-100000)).1).2.worker.varlen_potential_buffer_)
    ((pass1 fg v a w (entriesOf v)
      (reserve_buffer gs v.cardinality) (-100000)).2)
    (entriesOf v)
    ((erand48 (pass1 fg v a w (entriesOf v)
      (reserve_buffer gs v.cardinality) (-100000)).1).1) with _ | v'
  · simp [hq]
  · simp [hq]

/-- C3: if the cumulative-selection loop of a multinomial draw exits without
r ever dropping to 0 or below, draw_sample ends in the failed assert (the
process halts); a draw that does return a value returns a member of the
declared domain, never the invalid sentinel; and on a fatal draw the
inference sweep step writes nothing into the assignment vector (it aborts
with no state produced). -/
theorem C3_exhausted_selection_is_fatal (fg : CompactFactorGraph) (se : Bool)
    (vid : ℕ) (gs : GlobalState)
    (hdom : (fg.vars vid).domain_type = DTYPE_MULTINOMIAL) :
    (∀ (a : ℕ → ℕ) (w : ℕ → ℝ),
      mult_sel fg (fg.vars vid) a w gs = none →
      (draw_sample fg (fg.vars vid) a w gs).1 = DrawResult.fatal) ∧
    (∀ (a : ℕ → ℕ) (w : ℕ → ℝ) (val : ℕ),
      (draw_sample fg (fg.vars vid) a w gs).1 = DrawResult.value val →
      val ∈ (entriesOf (fg.vars vid)).map Prod.fst) ∧
    ((fg.vars vid).is_observation = false →
      (!(fg.vars vid).is_evid || se) = true →
      (draw_sample fg (fg.vars vid) gs.infrs.assignments_evid
        gs.infrs.weight_values gs).1 = DrawResult.fatal →
      sample_single_variable fg se vid gs = none) := by
  refine ⟨?_, ?_, ?_⟩
  · intro a w h
    rw [draw_sample_eq_mult fg (fg.vars vid) a w gs hdom]
    exact (draw_multinomial_fatal_iff fg (fg.vars vid) a w gs).mpr h
  · intro a w val h
    rw [draw_sample_eq_mult fg (fg.vars vid) a w gs hdom] at h
    have hsel := (draw_multinomial_value_iff fg (fg.vars vid) a w gs val).mp h
    exact pass2_mem _ _ (entriesOf (fg.vars vid)) _ val hsel
  · intro hobs hcond hfatal
    rcases hd : draw_sample fg (fg.vars vid) gs.infrs.assignments_evid
      gs.infrs.weight_values gs with ⟨res, g1⟩
    rw [hd] at hfatal
    simp only at hfatal
    subst hfatal
    exact ssv_fatal fg se vid gs g1 hobs hcond hd

/-- Multinomial variable with an empty domain (cardinality 0), on which the
selection loop trivially exhausts. -/
def wit3_var : Variable :=
  { id := 0, domain_type := DTYPE_MULTINOMIAL, cardinality := 0,
    domain_map := none, is_observation := false, is_evid := false,
    assignment_evid := 0, n_start_i_tally := 0 }

/-- Factor graph whose every variable is wit3_var. -/
noncomputable def wit3_fg : CompactFactorGraph :=
  { vars := fun _ => wit3_var, potential := fun _ _ _ _ => 0,
    update_weight_fn := fun _ infrs _ => infrs.weight_values }

/-- Witness for C3: on the empty-domain multinomial variable the draw is
fatal and the inference sweep step aborts without writing. -/
theorem C3_exhausted_selection_is_fatal_witness :
    (draw_sample wit3_fg wit3_var init_global.infrs.assignments_evid
      init_global.infrs.weight_values init_global).1 = DrawResult.fatal ∧
    sample_single_variable wit3_fg true 0 init_global = none := by
  have h := C3_exhausted_selection_is_fatal wit3_fg true 0 init_global rfl
  have hentries : entriesOf (wit3_fg.vars 0) = [] := rfl
  have hsel : mult_sel wit3_fg (wit3_fg.vars 0)
      init_global.infrs.assignments_evid init_global.infrs.weight_values
      init_global = none := by
    unfold mult_sel
    rw [hentries]
    simp [pass2]
  have hfatal := h.1 init_global.infrs.assignments_evid
    init_global.infrs.weight_values hsel
  exact ⟨hfatal, h.2.2 rfl rfl hfatal⟩

/-- Dense multinomial variable of cardinality 1, for the C2 analysis. -/
def cex2_var : Variable :=
  { id := 0, domain_type := DTYPE_MULTINOMIAL, cardinality := 1,
    domain_map := none, is_observation := false, is_evid := false,
    assignment_evid := 0, n_start_i_tally := 0 }

/-- Factor graph whose potential is the finite constant -100000 (the same
magnitude as the log-sum-exp seed). -/
noncomputable def cex2_fg : CompactFactorGraph :=
  { vars := fun _ => cex2_var, potential := fun _ _ _ _ => -100000,
    update_weight_fn := fun _ infrs _ => infrs.weight_values }

/-- A 48-bit RNG state whose next erand48 output is (2^47 + 1) / 2^48, a
value just above one half. -/
def cex2_seed : ℕ := 212465221713422

/-- Worker state seeded at cex2_seed over the all-zero shared state. -/
noncomputable def cex2_gs : GlobalState :=
  { infrs := zero_infrs, worker :=
    { p_rand_seed := cex2_seed, buffer_size := 0, buffer_cap := 0,
      varlen_potential_buffer_ := fun _ => 0 } }

/-- The erand48 step from cex2_seed lands exactly on 2^47 + 1. -/
lemma cex2_step : rand48_step cex2_seed = 140737488355329 := by
  norm_num [rand48_step, rand48_a, rand48_c, rand48_m, cex2_seed]

/-- On the concrete C2 instance the selection loop exhausts the domain:
the single normalized mass is exactly 1/2 (the -100000 seed of the
accumulator halves it) while the drawn r is just above 1/2. -/
lemma cex2_sel_none :
    mult_sel cex2_fg cex2_var (fun _ => 0) (fun _ => 0) cex2_gs = none := by
  have hentries : entriesOf cex2_var = [(0, 0)] := rfl
  unfold mult_sel
  rw [hentries]
  simp only [pass1, pass2, cex2_fg]
  have hmass : Real.exp ((-100000 : ℝ) - logadd (-100000) (-100000)) =
      1 / 2 := by
    have hpos : (0 : ℝ) < Real.exp (-100000) + Real.exp (-100000) := by
      positivity
    rw [logadd, Real.exp_sub, Real.exp_log hpos]
    have hne : Real.exp (-100000 : ℝ) ≠ 0 := Real.exp_ne_zero _
    field_simp
    ring
  rw [if_neg]
  push_neg
  simp only [erand48, reserve_buffer, cex2_gs, cex2_seed]
  have hstep : rand48_step 212465221713422 = 140737488355329 := cex2_step
  rw [hstep]
  have hupd : (Function.update
      (fun _ => (0 : ℝ)) 0 (-100000) : ℕ → ℝ) 0 = -100000 := by simp
  rw [hupd, hmass]
  rw [rand48_m]
  norm_num

/-- C2 counterexample: with the finite potential -100000 on a cardinality-1
dense domain and the reachable RNG state cex2_seed (whose uniform draw is
(2^47+1)/2^48, a value in [0,1)), the second-pass loop exhausts the domain
and draw_sample ends fatal instead of returning a domain value: the claim
fails as stated because the -100000 seed of the log-sum-exp accumulator
leaves the normalized masses summing to strictly less than 1. -/
theorem C2_counterexample_selection_exhausts :
    (draw_sample cex2_fg cex2_var (fun _ => 0) (fun _ => 0) cex2_gs).1 =
      DrawResult.fatal ∧
    0 ≤ (erand48 cex2_gs).1 ∧ (erand48 cex2_gs).1 < 1 := by
  refine ⟨?_, erand48_val_nonneg cex2_gs, erand48_val_lt_one cex2_gs⟩
  rw [draw_sample_eq_mult cex2_fg cex2_var _ _ cex2_gs rfl]
  exact (draw_multinomial_fatal_iff cex2_fg cex2_var _ _ cex2_gs).mpr
    cex2_sel_none

/-- C2 as amended: whenever the uniform draw of the multinomial branch is
strictly below the total mass the second pass subtracts (a total that is
strictly below 1 because of the -100000 accumulator seed, and reaches it only
up to that seed's contribution), the loop terminates with a selected value
and draw_sample returns a member of the declared domain, never the invalid
sentinel. -/
theorem C2_amended_selection_in_domain (fg : CompactFactorGraph)
    (v : Variable) (a : ℕ → ℕ) (w : ℕ → ℝ) (gs : GlobalState)
    (hdom : v.domain_type = DTYPE_MULTINOMIAL)
    (hr : (erand48 (pass1 fg v a w (entriesOf v)
        (reserve_buffer gs v.cardinality) (-100000)).1).1 <
      pass2_total ((erand48 (pass1 fg v a w (entriesOf v)
        (reserve_buffer gs v.cardinality)
          (-100000)).1).2.worker.varlen_potential_buffer_)
        ((pass1 fg v a w (entriesOf v)
          (reserve_buffer gs v.cardinality) (-100000)).2)
        (entriesOf v)) :
    ∃ val : ℕ, (draw_sample fg v a w gs).1 = DrawResult.value val ∧
      val ∈ (entriesOf v).map Prod.fst := by
  obtain ⟨val, hsel, hmem⟩ := pass2_some_of_lt_total
    ((erand48 (pass1 fg v a w (entriesOf v)
      (reserve_buffer gs v.cardinality)
        (-100000)).1).2.worker.varlen_potential_buffer_)
    ((pass1 fg v a w (entriesOf v)
      (reserve_buffer gs v.cardinality) (-100000)).2)
    (entriesOf v)
    ((erand48 (pass1 fg v a w (entriesOf v)
      (reserve_buffer gs v.cardinality) (-100000)).1).1)
    (erand48_val_nonneg _) hr
  refine ⟨val, ?_, hmem⟩
  rw [draw_sample_eq_mult fg v a w gs hdom]
  exact (draw_multinomial_value_iff fg v a w gs val).mpr hsel

/-- Dense multinomial variable of cardinality 1 with zero potential, for the
C2 witness. -/
def wit2_var : Variable :=
  { id := 0, domain_type := DTYPE_MULTINOMIAL, cardinality := 1,
    domain_map := none, is_observation := false, is_evid := false,
    assignment_evid := 0, n_start_i_tally := 0 }

/-- Factor graph with zero potentials over wit2_var. -/
noncomputable def wit2_fg : CompactFactorGraph :=
  { vars := fun _ => wit2_var, potential := fun _ _ _ _ => 0,
    update_weight_fn := fun _ infrs _ => infrs.weight_values }

/-- Witness for the amended C2: from the zero seed (uniform draw 11/2^48,
far below the selection mass 1/(1+e^(-100000)) > 1/2) the concrete draw
selects the single domain value 0. -/
theorem C2_amended_selection_in_domain_witness :
    (draw_sample wit2_fg wit2_var (fun _ => 0) (fun _ => 0) init_global).1 =
      DrawResult.value 0 := by
  have hentries : entriesOf wit2_var = [(0, 0)] := rfl
  have hr : (erand48 (pass1 wit2_fg wit2_var (fun _ => 0) (fun _ => 0)
      (entriesOf wit2_var)
      (reserve_buffer init_global wit2_var.cardinality) (-100000)).1).1 <
      pass2_total ((erand48 (pass1 wit2_fg wit2_var (fun _ => 0)
        (fun _ => 0) (entriesOf wit2_var)
        (reserve_buffer init_global wit2_var.cardinality)
          (-100000)).1).2.worker.varlen_potential_buffer_)
          ((pass1 wit2_fg wit2_var (fun _ => 0) (fun _ => 0)
            (entriesOf wit2_var)
            (reserve_buffer init_global wit2_var.cardinality) (-100000)).2)
          (entriesOf wit2_var) := by
    rw [hentries]
    simp only [pass1, pass2_total, wit2_fg, List.map_cons, List.map_nil,
      List.sum_cons, List.sum_nil]
    simp only [erand48, reserve_buffer, init_global, init_worker]
    have hstep : rand48_step 0 = 11 := by
      norm_num [rand48_step, rand48_a, rand48_c, rand48_m]
    rw [hstep]
    have hupd : (Function.update (fun _ => (0 : ℝ)) 0 0 : ℕ → ℝ) 0 = 0 := by
      simp
    rw [hupd]
    have hmass : Real.exp ((0 : ℝ) - logadd (-100000) 0) =
        1 / (Real.exp (-100000) + 1) := by
      have hpos : (0 : ℝ) < Real.exp (-100000) + Real.exp 0 := by positivity
      rw [logadd, Real.exp_sub, Real.exp_log hpos, Real.exp_zero]
    rw [hmass]
    have heps : Real.exp (-100000 : ℝ) < 1 := by
      rw [Real.exp_lt_one_iff]
      norm_num
    have heps0 : (0 : ℝ) < Real.exp (-100000) := Real.exp_pos _
    have hhalf : (1 : ℝ) / 2 < 1 / (Real.exp (-100000) + 1) := by
      rw [div_lt_div_iff₀ (by norm_num) (by positivity)]
      linarith
    have hsmall : ((11 : ℕ) : ℝ) / (rand48_m : ℝ) + 0 < 1 / 2 := by
      rw [rand48_m]
      norm_num
    linarith
  obtain ⟨val, hv, hm⟩ := C2_amended_selection_in_domain wit2_fg wit2_var
    (fun _ => 0) (fun _ => 0) init_global rfl hr
  have hval : val = 0 := by
    rw [hentries] at hm
    simpa using hm
  rw [hval] at hv
  exact hv
